import Mathlib

/-!
Verification of the LLM scoring/extraction pipeline of the
AI_Innovation_Lab_Grading backend, shallowly embedded in Lean 4.

Python strings are modelled as `List Char`, Python floats as `ℚ`
(exact-arithmetic model; IEEE representation error of binary floats is not
modelled, but every numeric operation the pipeline performs — comparison,
min/max, sum, division, `round(_, 2)` — is modelled exactly), JSON values
as the inductive `Json`, and raised exceptions as `Except` errors.

Sources embedded:
- `backend/app/services/scoring.py` (score_criteria, score_criteria_parallel,
  performance_band)
- `backend/app/services/llm_utils.py` (parse_llm_json)
- `backend/app/services/rubric_parser.py` (parse_rubric and helpers,
  LLMRubricParser error handling)
- `backend/app/services/rubric_manager.py` (scoring_payload_from_payload)
-/

/-! ## Python string primitives over `List Char` -/

/-- Python string model. -/
abbrev PyStr := List Char

/-- Characters stripped by Python `str.strip()` with no argument
(ASCII whitespace; the uncommon unicode whitespace Python also strips is
not relevant to any modelled string). -/
def pyIsSpace (c : Char) : Bool :=
  c = ' ' || c = '\t' || c = '\n' || c = '\r' || c = '\x0b' || c = '\x0c'

/-- Python `s.strip()`: remove leading and trailing whitespace. -/
def pyStrip (s : PyStr) : PyStr :=
  ((s.dropWhile pyIsSpace).reverse.dropWhile pyIsSpace).reverse

/-- Python `s.strip(chars)`: remove leading and trailing characters drawn
from the given set. -/
def pyStripSet (set : PyStr) (s : PyStr) : PyStr :=
  ((s.dropWhile (set.contains ·)).reverse.dropWhile (set.contains ·)).reverse

/-- Python `s.lower()` (ASCII model). -/
def pyLower (s : PyStr) : PyStr := s.map Char.toLower

/-- Does `pat` occur at the head of `s`? (Python `startswith`). -/
def leadsWith : PyStr → PyStr → Bool
  | [], _ => true
  | _ :: _, [] => false
  | a :: as, b :: bs => a = b && leadsWith as bs

/-- Does `pat` occur at the end of `s`? (Python `endswith`). -/
def trailsWith (pat s : PyStr) : Bool :=
  leadsWith pat.reverse s.reverse

/-- Python `pat in s` substring containment. -/
def containsSub (pat : PyStr) : PyStr → Bool
  | [] => pat.isEmpty
  | c :: rest => leadsWith pat (c :: rest) || containsSub pat rest

/-- Index of the first occurrence of character `c` (Python `s.find(c)`,
`none` for -1). -/
def pyFind (c : Char) : PyStr → Option Nat
  | [] => none
  | d :: rest => if d = c then some 0 else (pyFind c rest).map (· + 1)

/-- Index of the last occurrence of character `c` (Python `s.rfind(c)`,
`none` for -1). -/
def pyRfind (c : Char) (s : PyStr) : Option Nat :=
  (pyFind c s.reverse).map (fun i => s.length - 1 - i)

/-! ## Python `round(x, 2)` on the exact-rational model

Python `round` uses round-half-to-even. `pyRoundHalfEven` is that rule for
rounding a rational to an integer; `round2` scales it to two decimals as
`round(x, 2)` does. -/

/-- Round-half-to-even of a rational to an integer. -/
def pyRoundHalfEven (x : ℚ) : ℤ :=
  if x - ⌊x⌋ < 1/2 then ⌊x⌋
  else if 1/2 < x - ⌊x⌋ then ⌊x⌋ + 1
  else if Even ⌊x⌋ then ⌊x⌋ else ⌊x⌋ + 1

/-- Model of Python `round(x, 2)`. -/
def round2 (x : ℚ) : ℚ := (pyRoundHalfEven (100 * x) : ℚ) / 100

theorem floor_le_pyRoundHalfEven (x : ℚ) : ⌊x⌋ ≤ pyRoundHalfEven x := by
  unfold pyRoundHalfEven
  split
  · exact le_refl _
  split
  · omega
  split <;> omega

theorem pyRoundHalfEven_le_floor_add_one (x : ℚ) :
    pyRoundHalfEven x ≤ ⌊x⌋ + 1 := by
  unfold pyRoundHalfEven
  split
  · omega
  split
  · omega
  split <;> omega

theorem pyRoundHalfEven_intCast (n : ℤ) : pyRoundHalfEven (n : ℚ) = n := by
  unfold pyRoundHalfEven
  rw [Int.floor_intCast]
  have h : (n : ℚ) - n = 0 := by ring
  rw [h, if_pos (by norm_num)]

theorem pyRoundHalfEven_nonneg {x : ℚ} (hx : 0 ≤ x) :
    0 ≤ pyRoundHalfEven x :=
  le_trans (Int.floor_nonneg.mpr hx) (floor_le_pyRoundHalfEven x)

theorem pyRoundHalfEven_mono {x y : ℚ} (hxy : x ≤ y) :
    pyRoundHalfEven x ≤ pyRoundHalfEven y := by
  rcases lt_or_eq_of_le (Int.floor_le_floor hxy) with hlt | heq
  · calc pyRoundHalfEven x ≤ ⌊x⌋ + 1 := pyRoundHalfEven_le_floor_add_one x
      _ ≤ ⌊y⌋ := by omega
      _ ≤ pyRoundHalfEven y := floor_le_pyRoundHalfEven y
  · unfold pyRoundHalfEven
    rw [heq]
    have hf : x - (⌊y⌋ : ℚ) ≤ y - (⌊y⌋ : ℚ) := by linarith
    by_cases h1 : x - (⌊y⌋ : ℚ) < 1/2
    · rw [if_pos h1]
      split
      · exact le_refl _
      split
      · omega
      split <;> omega
    · rw [if_neg h1]
      have h1y : ¬ (y - (⌊y⌋ : ℚ) < 1/2) := by
        intro hy; exact h1 (lt_of_le_of_lt hf hy)
      rw [if_neg h1y]
      by_cases h2 : 1/2 < x - (⌊y⌋ : ℚ)
      · rw [if_pos h2, if_pos (lt_of_lt_of_le h2 hf)]
      · rw [if_neg h2]
        by_cases h2y : 1/2 < y - (⌊y⌋ : ℚ)
        · rw [if_pos h2y]
          split <;> omega
        · rw [if_neg h2y]

theorem round2_nonneg {x : ℚ} (hx : 0 ≤ x) : 0 ≤ round2 x := by
  unfold round2
  have h : (0 : ℤ) ≤ pyRoundHalfEven (100 * x) :=
    pyRoundHalfEven_nonneg (by linarith)
  have h' : (0 : ℚ) ≤ (pyRoundHalfEven (100 * x) : ℚ) := by exact_mod_cast h
  linarith

theorem round2_mono {x y : ℚ} (hxy : x ≤ y) : round2 x ≤ round2 y := by
  unfold round2
  have h : pyRoundHalfEven (100 * x) ≤ pyRoundHalfEven (100 * y) :=
    pyRoundHalfEven_mono (by linarith)
  have h' : ((pyRoundHalfEven (100 * x) : ℤ) : ℚ) ≤
      ((pyRoundHalfEven (100 * y) : ℤ) : ℚ) := by exact_mod_cast h
  linarith

/-- Rounding `round(x, 2)` is the identity on values expressible with two decimal
places. -/
theorem round2_eq_self {x : ℚ} {n : ℤ} (h : (n : ℚ) = 100 * x) :
    round2 x = x := by
  unfold round2
  rw [← h, pyRoundHalfEven_intCast, h]
  field_simp

/-- Concrete evaluation rule: if `100*x` sits strictly between `n + 1/2`
and `n + 1`, then `round2 x = (n+1)/100`. -/
theorem round2_eval_up {x : ℚ} {n : ℤ} (h1 : (n : ℚ) + 1/2 < 100 * x)
    (h2 : 100 * x < (n : ℚ) + 1) : round2 x = ((n : ℚ) + 1) / 100 := by
  unfold round2 pyRoundHalfEven
  have hfl : ⌊100 * x⌋ = n := by
    rw [Int.floor_eq_iff]
    constructor
    · linarith
    · exact_mod_cast h2
  rw [hfl, if_neg (by push_neg; linarith), if_pos (by linarith)]
  push_cast
  ring

/-- Concrete evaluation rule: if `100*x` sits in `[n, n + 1/2)`, then
`round2 x = n/100`. -/
theorem round2_eval_down {x : ℚ} {n : ℤ} (h1 : (n : ℚ) ≤ 100 * x)
    (h2 : 100 * x < (n : ℚ) + 1/2) : round2 x = (n : ℚ) / 100 := by
  unfold round2 pyRoundHalfEven
  have hfl : ⌊100 * x⌋ = n := by
    rw [Int.floor_eq_iff]
    constructor
    · exact_mod_cast h1
    · linarith
  rw [hfl, if_pos (by linarith)]

/-! ## performance_band (scoring.py lines 397-406) -/

/-- Function `performance_band` from `scoring.py`: maps a percentage to its label. -/
def performance_band (percent : ℚ) : String :=
  if 90 ≤ percent then "Outstanding"
  else if 80 ≤ percent then "Strong"
  else if 65 ≤ percent then "Competent"
  else if 50 ≤ percent then "Developing"
  else "Needs Support"

/-- C8: the fixed threshold table of `performance_band`: `≥90` Outstanding,
`[80,90)` Strong, `[65,80)` Competent, `[50,65)` Developing, `<50` Needs
Support. -/
theorem performance_band_thresholds (p : ℚ) :
    (90 ≤ p → performance_band p = "Outstanding") ∧
    (80 ≤ p → p < 90 → performance_band p = "Strong") ∧
    (65 ≤ p → p < 80 → performance_band p = "Competent") ∧
    (50 ≤ p → p < 65 → performance_band p = "Developing") ∧
    (p < 50 → performance_band p = "Needs Support") := by
  refine ⟨fun h => ?_, fun h h' => ?_, fun h h' => ?_, fun h h' => ?_,
    fun h => ?_⟩ <;> unfold performance_band
  · rw [if_pos h]
  · rw [if_neg (not_le.mpr h'), if_pos h]
  · rw [if_neg (not_le.mpr (by linarith)), if_neg (not_le.mpr h'), if_pos h]
  · rw [if_neg (not_le.mpr (by linarith)), if_neg (not_le.mpr (by linarith)),
      if_neg (not_le.mpr h'), if_pos h]
  · rw [if_neg (not_le.mpr (by linarith)), if_neg (not_le.mpr (by linarith)),
      if_neg (not_le.mpr (by linarith)), if_neg (not_le.mpr h)]

/-- C8 witness: concrete percentages hit each band. -/
theorem performance_band_thresholds_witness :
    performance_band 95 = "Outstanding" ∧ performance_band 85 = "Strong" ∧
    performance_band 70 = "Competent" ∧ performance_band 55 = "Developing" ∧
    performance_band 20 = "Needs Support" :=
  ⟨(performance_band_thresholds 95).1 (by norm_num),
   (performance_band_thresholds 85).2.1 (by norm_num) (by norm_num),
   (performance_band_thresholds 70).2.2.1 (by norm_num) (by norm_num),
   (performance_band_thresholds 55).2.2.2.1 (by norm_num) (by norm_num),
   (performance_band_thresholds 20).2.2.2.2 (by norm_num)⟩

/-! ## JSON values and a model of Python `json.loads` -/

/-- JSON value, the result type of `json.loads`. Numbers are modelled as
exact rationals. -/
inductive Json where
  | null : Json
  | bool (b : Bool) : Json
  | num (q : ℚ) : Json
  | str (s : PyStr) : Json
  | arr (xs : List Json) : Json
  | obj (kvs : List (PyStr × Json)) : Json

/-- Python truthiness of a JSON-shaped value (`bool(v)`): `None`, `False`,
`0`, the empty string, the empty list and the empty dict are falsy. -/
def jTruthy : Json → Bool
  | .null => false
  | .bool b => b
  | .num q => !(q = 0 : Bool)
  | .str s => !s.isEmpty
  | .arr xs => !xs.isEmpty
  | .obj kvs => !kvs.isEmpty

/-- Lookup `d.get(k)` on a Python dict built from an association list where, as in
`json.loads`, a repeated key keeps its last value. -/
def objGet (kvs : List (PyStr × Json)) (k : PyStr) : Option Json :=
  match kvs with
  | [] => none
  | (k', v) :: rest => match objGet rest k with
    | some w => some w
    | none => if k' = k then some v else none

/-- Lookup `v.get(k)` where `v` is any JSON value: only defined (as in Python) when
`v` is a dict; the non-dict case is handled at each call site. -/
def jsonGet (j : Json) (k : PyStr) : Option Json :=
  match j with
  | .obj kvs => objGet kvs k
  | _ => none

/-- Whitespace skipped by Python's JSON decoder (` `, `\t`, `\n`, `\r`). -/
def jsonWs (c : Char) : Bool :=
  c = ' ' || c = '\t' || c = '\n' || c = '\r'

/-- Digit test. -/
def isDigitCh (c : Char) : Bool := '0' ≤ c && c ≤ '9'

/-- Numeric value of a digit list (most significant first). -/
def digitsVal (ds : PyStr) : ℕ :=
  ds.foldl (fun acc c => acc * 10 + (c.toNat - '0'.toNat)) 0

/-- Parse the integer part of a JSON number: `0`, or a nonzero digit
followed by digits (JSON forbids leading zeros). Returns the value and the
rest. -/
def parseJsonInt (s : PyStr) : Option (ℕ × PyStr) :=
  let ds := s.takeWhile isDigitCh
  let rest := s.dropWhile isDigitCh
  match ds with
  | [] => none
  | ['0'] => some (0, rest)
  | '0' :: _ :: _ => none
  | _ => some (digitsVal ds, rest)

/-- Parse the optional fraction part `.digits`; returns the fractional value
and the rest. -/
def parseJsonFrac (s : PyStr) : Option (ℚ × PyStr) :=
  match s with
  | '.' :: rest =>
    let ds := rest.takeWhile isDigitCh
    if ds.isEmpty then none
    else some ((digitsVal ds : ℚ) / (10 : ℚ) ^ ds.length,
      rest.dropWhile isDigitCh)
  | _ => some (0, s)

/-- Parse the optional exponent part `e[±]digits`; returns the power of ten
and the rest. -/
def parseJsonExp (s : PyStr) : Option (ℚ × PyStr) :=
  match s with
  | 'e' :: rest | 'E' :: rest =>
    let signed : (ℤ × PyStr) ⊕ Unit := match rest with
      | '+' :: r => .inl (1, r)
      | '-' :: r => .inl (-1, r)
      | r => .inl (1, r)
    match signed with
    | .inl (sg, r) =>
      let ds := r.takeWhile isDigitCh
      if ds.isEmpty then none
      else some ((10 : ℚ) ^ (sg * (digitsVal ds : ℤ)), r.dropWhile isDigitCh)
    | .inr _ => none
  | _ => some (1, s)

/-- Parse a JSON number (after an optional leading `-` handled here). -/
def parseJsonNum (s : PyStr) : Option (ℚ × PyStr) := do
  let (sign, s1) : ℚ × PyStr := match s with
    | '-' :: r => (-1, r)
    | r => (1, r)
  let (ip, s2) ← parseJsonInt s1
  let (fp, s3) ← parseJsonFrac s2
  let (ep, s4) ← parseJsonExp s3
  pure (sign * ((ip : ℚ) + fp) * ep, s4)

/-- Decode a JSON string body up to the closing quote. Supports the simple
escapes; `\uXXXX` escapes are not modelled (no modelled input contains
them). -/
def parseJsonStr : PyStr → Option (PyStr × PyStr)
  | [] => none
  | '"' :: rest => some ([], rest)
  | '\\' :: e :: rest => do
    let c ← match e with
      | '"' => some '"'
      | '\\' => some '\\'
      | '/' => some '/'
      | 'b' => some '\x08'
      | 'f' => some '\x0c'
      | 'n' => some '\n'
      | 'r' => some '\r'
      | 't' => some '\t'
      | _ => none
    let (tail, rem) ← parseJsonStr rest
    pure (c :: tail, rem)
  | c :: rest => do
    let (tail, rem) ← parseJsonStr rest
    pure (c :: tail, rem)

mutual

/-- Recursive-descent JSON value parser (model of the decoder behind
`json.loads`); `fuel` strictly decreases at each recursive call and is
chosen large enough by `json_loads`. -/
def parseJsonVal (fuel : Nat) (s : PyStr) : Option (Json × PyStr) :=
  match fuel with
  | 0 => none
  | fuel + 1 =>
    match s.dropWhile jsonWs with
    | 'n' :: 'u' :: 'l' :: 'l' :: rest => some (.null, rest)
    | 't' :: 'r' :: 'u' :: 'e' :: rest => some (.bool true, rest)
    | 'f' :: 'a' :: 'l' :: 's' :: 'e' :: rest => some (.bool false, rest)
    | '"' :: rest => do
      let (body, rem) ← parseJsonStr rest
      pure (.str body, rem)
    | '[' :: rest =>
      (match (rest.dropWhile jsonWs) with
        | ']' :: rem => some (.arr [], rem)
        | _ => do
          let (xs, rem) ← parseJsonElems fuel rest
          pure (.arr xs, rem))
    | '\x7b' :: rest =>
      (match (rest.dropWhile jsonWs) with
        | '\x7d' :: rem => some (.obj [], rem)
        | _ => do
          let (kvs, rem) ← parseJsonMembers fuel rest
          pure (.obj kvs, rem))
    | s' => do
      let (q, rem) ← parseJsonNum s'
      pure (.num q, rem)

/-- Comma-separated array elements followed by `]`. -/
def parseJsonElems (fuel : Nat) (s : PyStr) : Option (List Json × PyStr) :=
  match fuel with
  | 0 => none
  | fuel + 1 => do
    let (v, rest) ← parseJsonVal fuel s
    match rest.dropWhile jsonWs with
    | ',' :: rest' => do
      let (vs, rem) ← parseJsonElems fuel rest'
      pure (v :: vs, rem)
    | ']' :: rem => pure ([v], rem)
    | _ => none

/-- Comma-separated `"key": value` members followed by the closing brace. -/
def parseJsonMembers (fuel : Nat) (s : PyStr) :
    Option (List (PyStr × Json) × PyStr) :=
  match fuel with
  | 0 => none
  | fuel + 1 => do
    let sk := s.dropWhile jsonWs
    match sk with
    | '"' :: rest => do
      let (key, afterKey) ← parseJsonStr rest
      match afterKey.dropWhile jsonWs with
      | ':' :: afterColon => do
        let (v, rest') ← parseJsonVal fuel afterColon
        match rest'.dropWhile jsonWs with
        | ',' :: rest'' => do
          let (kvs, rem) ← parseJsonMembers fuel rest''
          pure ((key, v) :: kvs, rem)
        | '\x7d' :: rem => pure ([(key, v)], rem)
        | _ => none
      | _ => none
    | _ => none

end

/-- Model of Python `json.loads`: parse one JSON value and require only
trailing whitespace after it. -/
def json_loads (s : PyStr) : Option Json :=
  match parseJsonVal (2 * s.length + 2) s with
  | some (v, rest) => if (rest.dropWhile jsonWs).isEmpty then some v else none
  | none => none

/-! ## parse_llm_json (llm_utils.py lines 14-62) -/

/-- The union type `Union[str, Dict, list]` accepted by `parse_llm_json`:
either raw text or an already-structured (dict/list) value. -/
inductive LlmPayload where
  | text (s : PyStr) : LlmPayload
  | structured (j : Json) : LlmPayload

/-- The three-backtick fence marker. -/
def fenceMarker : PyStr := ['\x60', '\x60', '\x60']

/-- Model of `parse_llm_json`: ordered fallback chain over the raw text.
A decoding failure carries the trimmed text (as the raised
`json.JSONDecodeError` does). The optional `json_repair` dependency guard
(lines 53-59) is modelled as the dependency being absent; it is only
reached after every modelled fallback has failed, so it does not affect
any input that decodes. -/
def parse_llm_json : LlmPayload → Except PyStr Json
  | .structured j => .ok j
  | .text payload =>
    match json_loads payload with
    | some v => .ok v
    | none =>
      let trimmed := pyStrip payload
      let fenced : Option Json :=
        if leadsWith fenceMarker trimmed && trailsWith fenceMarker trimmed
        then json_loads (pyStripSet ['\x60', ' ', '\n'] trimmed)
        else none
      match fenced with
      | some v => .ok v
      | none =>
        let asArray : Option Json :=
          if leadsWith ['['] trimmed && trailsWith [']'] trimmed
          then json_loads trimmed
          else none
        match asArray with
        | some v => .ok v
        | none =>
          let braceSlice : Option Json :=
            match pyFind '\x7b' trimmed, pyRfind '\x7d' trimmed with
            | some st, some en =>
              if st < en
              then json_loads ((trimmed.drop st).take (en + 1 - st))
              else none
            | _, _ => none
          match braceSlice with
          | some v => .ok v
          | none => .error trimmed

/-- The parsed value of the JSON text mapping key a to 1. -/
def jsonTarget : Json := .obj [(['a'], .num 1)]

/-- The object as plain text. -/
def plainInput : PyStr := "\x7b\"a\":1\x7d".toList

/-- The object fenced in triple backticks. -/
def fencedInput : PyStr := "```json\n\x7b\"a\":1\x7d\n```".toList

/-- The object surrounded by prose. -/
def proseInput : PyStr := "Here is the JSON: \x7b\"a\":1\x7d hope this helps.".toList

/-- The object as the lone JSON object inside noisy text. -/
def noisyInput : PyStr := "noise before \x7b\"a\":1\x7d noise after".toList

/-- C3: `parse_llm_json` round-trips: the plain, fenced, prose-wrapped and
noisy-text forms of the object mapping key a to 1 all normalize to the
identical parsed value,
and an already-structured payload passes through unchanged. -/
theorem parse_llm_json_round_trip :
    parse_llm_json (.text plainInput) = .ok jsonTarget ∧
    parse_llm_json (.text fencedInput) = .ok jsonTarget ∧
    parse_llm_json (.text proseInput) = .ok jsonTarget ∧
    parse_llm_json (.text noisyInput) = .ok jsonTarget ∧
    ∀ j : Json, parse_llm_json (.structured j) = .ok j := by
  refine ⟨?_, ?_, ?_, ?_, fun j => rfl⟩ <;> with_unfolding_all rfl

/-! ## Scoring pipeline (scoring.py lines 184-394)

The provider call is abstracted as an oracle `PayloadItem → Json` giving,
per criterion, the JSON evaluation parsed from the model response (the
value `scorer.score_item(...)` returns). The rendered prompt string and
the `metadata` mapping feed only into that provider call, so they are not
carried in the model; `prompt_used` (a copy of the prompt) and the
narrative strings `summary`/`narrative_feedback` (f-string renderings of
fields that are carried) are likewise omitted from the records. -/

/-- Python exceptions raised by the modelled code. -/
inductive PyExn where
  | scoringError (msg : PyStr) : PyExn
  | rubricParsingError (msg : PyStr) : PyExn
  | attributeError : PyExn
  | typeError : PyExn
  | valueError : PyExn

/-- A raw criterion dict as passed to `score_criteria` /
`scoring_payload_from_payload`: each field is read with `.get`, so each is
optional; values carry their schema types (strings / numbers). -/
structure CriterionIn where
  rubric_item_id : Option PyStr := none
  id : Option PyStr := none
  name : Option PyStr := none
  description : Option PyStr := none
  item_type : Option PyStr := none
  max_score : Option ℚ := none
  weight : Option ℚ := none

/-- Python `x or default` for an optionally-present string (absent, `None`
and `""` are falsy). -/
def orElseStr (x : Option PyStr) (d : PyStr) : PyStr :=
  match x with
  | some s => if s.isEmpty then d else s
  | none => d

/-- A normalized rubric-payload item (scoring.py lines 197-205 /
rubric_manager.py lines 34-43). -/
structure PayloadItem where
  rubric_item_id : PyStr
  name : PyStr
  description : Option PyStr
  item_type : PyStr
  max_score : ℚ
  weight : Option ℚ

/-- The payload normalization of `score_criteria` and
`score_criteria_parallel` (scoring.py lines 197-205 and 307-315, identical
text), for the criterion at 1-based index `idx`. In particular
`max_score = float(item.get("max_score") or 0.0) or 1.0`: absent, `None`
and `0` all collapse to `1.0`, every other value (negative included)
passes through. -/
def makePayloadItem (idx : Nat) (c : CriterionIn) : PayloadItem :=
  { rubric_item_id :=
      orElseStr c.rubric_item_id
        (orElseStr c.id (("criterion_" ++ Nat.repr idx).toList))
    name := pyStrip (orElseStr c.name (("Criterion " ++ Nat.repr idx).toList))
    description :=
      let d := pyStrip (orElseStr c.description [])
      if d.isEmpty then none else some d
    item_type := pyLower (pyStrip (orElseStr c.item_type "criterion".toList))
    max_score :=
      let m := c.max_score.getD 0
      if m = 0 then 1 else m
    weight := c.weight }

/-- Per-item normalization of `scoring_payload_from_payload`
(rubric_manager.py lines 34-43): here `max_score = criterion.get("max_score")
or 1.0` (absent/`None`/`0` become `1.0`, all else passes through), the name
is not stripped and the description passes through untouched. -/
def scoring_payload_from_payload_item (idx : Nat) (c : CriterionIn) :
    PayloadItem :=
  { rubric_item_id :=
      orElseStr c.rubric_item_id
        (orElseStr c.id (("criterion_" ++ Nat.repr idx).toList))
    name := orElseStr c.name (("Criterion " ++ Nat.repr idx).toList)
    description := c.description
    item_type := pyLower (pyStrip (orElseStr c.item_type "criterion".toList))
    max_score := match c.max_score with
      | none => 1
      | some v => if v = 0 then 1 else v
    weight := c.weight }

/-- Function `scoring_payload_from_payload` (rubric_manager.py lines 29-44). -/
def scoring_payload_from_payload (criteria : List CriterionIn) :
    List PayloadItem :=
  (List.enumFrom 1 criteria).map
    (fun p => scoring_payload_from_payload_item p.1 p.2)

/-- Model of Python `float(s)` on a string: optional whitespace, sign,
decimal digits with optional point and exponent. (`inf`/`nan`/underscore
forms are not modelled; no claim involves them.) -/
def parseExpOpt : PyStr → Option ℚ
  | [] => some 1
  | 'e' :: r | 'E' :: r =>
    let signed : ℤ × PyStr := match r with
      | '+' :: x => (1, x)
      | '-' :: x => (-1, x)
      | x => (1, x)
    let ds := signed.2.takeWhile isDigitCh
    if ds.isEmpty || !(signed.2.dropWhile isDigitCh).isEmpty then none
    else some ((10 : ℚ) ^ (signed.1 * (digitsVal ds : ℤ)))
  | _ => none

/-- Model of Python `float(s)` for decimal strings. -/
def pyFloatOfStr (s : PyStr) : Option ℚ :=
  let t := pyStrip s
  let signed : ℚ × PyStr := match t with
    | '+' :: r => (1, r)
    | '-' :: r => (-1, r)
    | r => (1, r)
  let ipart := signed.2.takeWhile isDigitCh
  let rest1 := signed.2.dropWhile isDigitCh
  match rest1 with
  | '.' :: r2 =>
    let fpart := r2.takeWhile isDigitCh
    if ipart.isEmpty && fpart.isEmpty then none
    else (parseExpOpt (r2.dropWhile isDigitCh)).map
      (fun e => signed.1 *
        ((digitsVal ipart : ℚ) + (digitsVal fpart : ℚ) / 10 ^ fpart.length) * e)
  | rest =>
    if ipart.isEmpty then none
    else (parseExpOpt rest).map (fun e => signed.1 * (digitsVal ipart : ℚ) * e)

/-- Model of Python `float(v)` on a JSON value: numbers pass through, bools
coerce (`True` is an `int`), numeric strings parse (`ValueError`
otherwise), everything else raises `TypeError`. -/
def pyFloat : Json → Except PyExn ℚ
  | .num q => .ok q
  | .bool b => .ok (if b then 1 else 0)
  | .str s =>
    match pyFloatOfStr s with
    | some q => .ok q
    | none => .error .valueError
  | _ => .error .typeError

/-- Key constants. -/
def evalKey : PyStr := "evaluation".toList

def scoreKey : PyStr := "score".toList

def justKey : PyStr := "justification".toList

/-- The fixed placeholder justification. -/
def noJustification : PyStr := "No justification provided.".toList

/-- Step `evaluation = result.get("evaluation") or result` (scoring.py line 214 /
line 325) followed by the implicit requirement that the evaluation be a
dict (its `.get` calls raise `AttributeError` otherwise). Returns the
evaluation dict's entries. -/
def extractEvaluation (result : Json) : Except PyExn (List (PyStr × Json)) :=
  match result with
  | .obj kvs =>
    let evaluation := match objGet kvs evalKey with
      | some v => if jTruthy v then v else result
      | none => result
    match evaluation with
    | .obj evs => .ok evs
    | _ => .error .attributeError
  | _ => .error .attributeError

/-- Step `score_value = float(evaluation.get("score", 0.0))` (line 215 / 326). -/
def extractScore (evs : List (PyStr × Json)) : Except PyExn ℚ :=
  pyFloat ((objGet evs scoreKey).getD (.num 0))

/-- Step `justification = (evaluation.get("justification") or "").strip()`
(line 217 / 328): absent or falsy values collapse to `""`; a truthy
non-string would raise `AttributeError` at `.strip()`. -/
def extractJustification (evs : List (PyStr × Json)) : Except PyExn PyStr :=
  match objGet evs justKey with
  | none => .ok []
  | some v =>
    if jTruthy v then
      match v with
      | .str s => .ok (pyStrip s)
      | _ => .error .attributeError
    else .ok []

/-- One normalized criterion result (scoring.py lines 220-233 / 331-342,
`prompt_used` omitted as discussed above). -/
structure NormScore where
  rubric_item_id : PyStr
  item_type : PyStr
  name : PyStr
  description : Option PyStr
  score : ℚ
  max_score : ℚ
  feedback : PyStr
  evidence : PyStr
  justification : PyStr

/-- The per-criterion normalization block shared verbatim by
`score_criteria` (lines 213-233) and `score_criteria_parallel.score_single_item`
(lines 324-342): unwrap the optional `evaluation` envelope, coerce the
score, clamp it into `[0, max_score]`, round to two decimals, and
substitute the placeholder justification when the model's is missing or
blank. -/
def normalizeEvaluation (item : PayloadItem) (result : Json) :
    Except PyExn NormScore :=
  match extractEvaluation result with
  | .error e => .error e
  | .ok evs =>
    match extractScore evs with
    | .error e => .error e
    | .ok score_value =>
      let clamped_score := max 0 (min score_value item.max_score)
      match extractJustification evs with
      | .error e => .error e
      | .ok j0 =>
        let justification := if j0.isEmpty then noJustification else j0
        .ok { rubric_item_id := item.rubric_item_id
              item_type := item.item_type
              name := item.name
              description := item.description
              score := round2 clamped_score
              max_score := item.max_score
              feedback := justification
              evidence := justification
              justification := justification }

/-- The sort key of the strength/weakness comprehensions (lines 245/254 and
363/372): `entry["score"] / entry["max_score"] if entry["max_score"] else 0.0`. -/
def ratioKey (e : NormScore) : ℚ :=
  if e.max_score ≠ 0 then e.score / e.max_score else 0

/-- Comparison of `sorted(..., key=ratioKey, reverse=True)` (stable descending). -/
def descByRatio (a b : NormScore) : Prop := ratioKey b ≤ ratioKey a

/-- Comparison of `sorted(..., key=ratioKey)` (stable ascending). -/
def ascByRatio (a b : NormScore) : Prop := ratioKey a ≤ ratioKey b

instance : DecidableRel descByRatio :=
  fun a b => inferInstanceAs (Decidable (ratioKey b ≤ ratioKey a))

instance : DecidableRel ascByRatio :=
  fun a b => inferInstanceAs (Decidable (ratioKey a ≤ ratioKey b))

/-- The strengths comprehension (lines 241-249 / 359-367): sort by ratio
descending (Python's sort is stable), keep entries with
`score >= 0.8 * max_score`, truncate to 3. The source formats each kept
entry as the f-string of name, score and max_score; the model keeps the entries
themselves, the selection and order being the verified content. -/
def selectStrengths (normalized : List NormScore) : List NormScore :=
  ((normalized.insertionSort descByRatio).filter
    (fun e => decide ((0.8 : ℚ) * e.max_score ≤ e.score))).take 3

/-- The areas-for-development comprehension (lines 250-257 / 368-375):
sort by ratio ascending, keep entries with `score <= 0.6 * max_score`,
truncate to 3. -/
def selectAreas (normalized : List NormScore) : List NormScore :=
  ((normalized.insertionSort ascByRatio).filter
    (fun e => decide (e.score ≤ (0.6 : ℚ) * e.max_score))).take 3

/-- The aggregate report assembled at the tail of both scoring functions
(lines 235-276 and 352-394, identical text). `percent` is the local
variable feeding `performance_band` and the summary line. -/
structure Report where
  criterion_scores : List NormScore
  total_score : ℚ
  max_total_score : ℚ
  percent : ℚ
  performance_band : String
  key_strengths : List NormScore
  areas_for_development : List NormScore
  rubric_type : PyStr

/-- Aggregation (lines 235-276 / 352-394): totals are 2-decimal roundings
of the sums, `percent` guards against a zero denominator via Python
truthiness, strengths/areas as above. -/
def aggregateScores (normalized : List NormScore) (rubric_type : PyStr) :
    Report :=
  let total_score := round2 (normalized.map (·.score)).sum
  let max_total_score := round2 (normalized.map (·.max_score)).sum
  let percent := if max_total_score ≠ 0
    then total_score / max_total_score * 100 else 0
  { criterion_scores := normalized
    total_score := total_score
    max_total_score := max_total_score
    percent := percent
    performance_band := performance_band percent
    key_strengths := selectStrengths normalized
    areas_for_development := selectAreas normalized
    rubric_type := if rubric_type.isEmpty then "analytic".toList
      else rubric_type }

/-- Function `score_criteria` (scoring.py lines 184-276). The oracle gives the
parsed model evaluation per payload item (the prompt is a function of the
item, the fixed transcript and rubric type, so an item-indexed oracle
loses nothing). -/
def score_criteria (oracle : PayloadItem → Json) (criteria : List CriterionIn)
    (transcript_text : PyStr) (rubric_type : PyStr) : Except PyExn Report :=
  if criteria.isEmpty then
    .error (.scoringError
      "At least one rubric criterion is required for scoring.".toList)
  else if (pyStrip transcript_text).isEmpty then
    .error (.scoringError "Transcript text is empty.".toList)
  else
    let rubric_payload := (List.enumFrom 1 criteria).map
      (fun p => makePayloadItem p.1 p.2)
    match rubric_payload.mapM (fun it => normalizeEvaluation it (oracle it)) with
    | .error e => .error e
    | .ok normalized_scores => .ok (aggregateScores normalized_scores rubric_type)

/-- The batch split of `score_criteria_parallel`
(`for i in range(0, len(payload), batch_size): batch = payload[i:i+batch_size]`,
lines 346-347), driven by a fuel bounded by the list length (any
`fuel ≥ length` computes the same batches when `0 < b`). -/
def toBatchesGo (b : Nat) : Nat → List α → List (List α)
  | _, [] => []
  | 0, _ :: _ => []
  | fuel + 1, l => l.take b :: toBatchesGo b fuel (l.drop b)

/-- The batches `payload[0:b], payload[b:2b], ...`. -/
def toBatches (b : Nat) (l : List α) : List (List α) := toBatchesGo b l.length l

/-- The batch loop (lines 345-350): each batch is scored by
`asyncio.gather` (which returns results in argument order) and appended to
the accumulator; a failing call aborts the whole loop. -/
def gatherBatches (f : α → Except ε β) : List (List α) → Except ε (List β)
  | [] => .ok []
  | bat :: rest =>
    match bat.mapM f with
    | .error e => .error e
    | .ok rs =>
      match gatherBatches f rest with
      | .error e => .error e
      | .ok rest' => .ok (rs ++ rest')

/-- Function `score_criteria_parallel` (scoring.py lines 279-394). `batch_size = 0`
raises `ValueError` (Python `range` rejects a zero step). -/
def score_criteria_parallel (oracle : PayloadItem → Json)
    (criteria : List CriterionIn) (transcript_text : PyStr)
    (rubric_type : PyStr) (batch_size : Nat) : Except PyExn Report :=
  if criteria.isEmpty then
    .error (.scoringError
      "At least one rubric criterion is required for scoring.".toList)
  else if (pyStrip transcript_text).isEmpty then
    .error (.scoringError "Transcript text is empty.".toList)
  else if batch_size = 0 then .error .valueError
  else
    let rubric_payload := (List.enumFrom 1 criteria).map
      (fun p => makePayloadItem p.1 p.2)
    match gatherBatches (fun it => normalizeEvaluation it (oracle it))
        (toBatches batch_size rubric_payload) with
    | .error e => .error e
    | .ok normalized_scores => .ok (aggregateScores normalized_scores rubric_type)

/-! ## Inversion lemmas for the normalization and the two pipelines -/

/-- The record a successful `normalizeEvaluation` returns, explicitly. -/
def mkNormScore (item : PayloadItem) (sv : ℚ) (j0 : PyStr) : NormScore :=
  { rubric_item_id := item.rubric_item_id
    item_type := item.item_type
    name := item.name
    description := item.description
    score := round2 (max 0 (min sv item.max_score))
    max_score := item.max_score
    feedback := if j0.isEmpty then noJustification else j0
    evidence := if j0.isEmpty then noJustification else j0
    justification := if j0.isEmpty then noJustification else j0 }

theorem normalizeEvaluation_ok_inv {item : PayloadItem} {result : Json}
    {r : NormScore} (h : normalizeEvaluation item result = .ok r) :
    ∃ evs sv j0, extractEvaluation result = .ok evs ∧
      extractScore evs = .ok sv ∧ extractJustification evs = .ok j0 ∧
      r = mkNormScore item sv j0 := by
  unfold normalizeEvaluation at h
  cases he : extractEvaluation result with
  | error e => rw [he] at h; exact absurd h (by simp)
  | ok evs =>
    rw [he] at h
    dsimp only at h
    cases hs : extractScore evs with
    | error e => rw [hs] at h; exact absurd h (by simp)
    | ok sv =>
      rw [hs] at h
      dsimp only at h
      cases hj : extractJustification evs with
      | error e => rw [hj] at h; exact absurd h (by simp)
      | ok j0 =>
        rw [hj] at h
        simp only [Except.ok.injEq] at h
        exact ⟨evs, sv, j0, rfl, hs, hj, h.symm⟩

theorem score_criteria_ok_inv {oracle : PayloadItem → Json}
    {criteria : List CriterionIn} {t rt : PyStr} {rep : Report}
    (h : score_criteria oracle criteria t rt = .ok rep) :
    ∃ ns, ((List.enumFrom 1 criteria).map
        (fun p => makePayloadItem p.1 p.2)).mapM
        (fun it => normalizeEvaluation it (oracle it)) = .ok ns ∧
      rep = aggregateScores ns rt := by
  unfold score_criteria at h
  split at h
  · exact absurd h (by simp)
  · split at h
    · exact absurd h (by simp)
    · dsimp only at h
      cases hm : ((List.enumFrom 1 criteria).map
          (fun p => makePayloadItem p.1 p.2)).mapM
          (fun it => normalizeEvaluation it (oracle it)) with
      | error e => rw [hm] at h; exact absurd h (by simp)
      | ok ns =>
        rw [hm] at h
        simp only [Except.ok.injEq] at h
        exact ⟨ns, rfl, h.symm⟩

theorem score_criteria_parallel_ok_inv {oracle : PayloadItem → Json}
    {criteria : List CriterionIn} {t rt : PyStr} {b : Nat} {rep : Report}
    (h : score_criteria_parallel oracle criteria t rt b = .ok rep) :
    ∃ ns, gatherBatches (fun it => normalizeEvaluation it (oracle it))
        (toBatches b ((List.enumFrom 1 criteria).map
          (fun p => makePayloadItem p.1 p.2))) = .ok ns ∧
      rep = aggregateScores ns rt := by
  unfold score_criteria_parallel at h
  split at h
  · exact absurd h (by simp)
  · split at h
    · exact absurd h (by simp)
    · split at h
      · exact absurd h (by simp)
      · dsimp only at h
        cases hm : gatherBatches (fun it => normalizeEvaluation it (oracle it))
            (toBatches b ((List.enumFrom 1 criteria).map
              (fun p => makePayloadItem p.1 p.2))) with
        | error e => rw [hm] at h; exact absurd h (by simp)
        | ok ns =>
          rw [hm] at h
          simp only [Except.ok.injEq] at h
          exact ⟨ns, rfl, h.symm⟩

/-! ## C1: clamping of the recorded per-criterion score -/

/-- A payload item whose positive `max_score` needs more than two decimal
places. -/
def smallMaxItem : PayloadItem :=
  { rubric_item_id := "c1".toList
    name := "Criterion 1".toList
    description := none
    item_type := "criterion".toList
    max_score := 3/500
    weight := none }

/-- A model evaluation whose raw score exceeds that maximum. -/
def overScoreResult : Json :=
  .obj [(evalKey, .obj [(scoreKey, .num 1), (justKey, .str "ok".toList)])]

/-- The stored result: the clamp yields `0.006`, but the stored score is
`round(0.006, 2) = 0.01`. -/
def overNorm : NormScore :=
  { rubric_item_id := "c1".toList
    item_type := "criterion".toList
    name := "Criterion 1".toList
    description := none
    score := 1/100
    max_score := 3/500
    feedback := "ok".toList
    evidence := "ok".toList
    justification := "ok".toList }

/-- C1 counterexample: with the positive maximum `0.006` and raw model
score `1`, the recorded score is `round(max(0, min(1, 0.006)), 2) = 0.01`,
which lies outside `[0, max_score]` — the final two-decimal rounding (line
226 / 336) can push the stored score above `max_score`. -/
theorem clamped_rounding_exceeds_max :
    0 < smallMaxItem.max_score ∧
    normalizeEvaluation smallMaxItem overScoreResult = .ok overNorm ∧
    ¬ (overNorm.score ≤ smallMaxItem.max_score) := by
  refine ⟨by norm_num [smallMaxItem], ?_, ?_⟩
  · with_unfolding_all rfl
  · show ¬ ((1 : ℚ)/100 ≤ 3/500)
    norm_num

/-- C1 (amended): the clamp `max(0.0, min(score_value, max_score))` always
lies in `[0, max_score]` when `max_score > 0`; the *stored* score is its
two-decimal rounding, hence lies in `[0, round2 max_score]`, and in
`[0, max_score]` itself whenever `max_score` is expressible with two
decimal places. (`normalizeEvaluation` is the normalization block shared
verbatim by `score_criteria` and `score_criteria_parallel`.) -/
theorem score_clamping_bounds (item : PayloadItem) (result : Json)
    (r : NormScore) (hpos : 0 < item.max_score)
    (h : normalizeEvaluation item result = .ok r) :
    r.max_score = item.max_score ∧
    (∃ evs sv, extractEvaluation result = .ok evs ∧ extractScore evs = .ok sv ∧
      r.score = round2 (max 0 (min sv item.max_score)) ∧
      0 ≤ max 0 (min sv item.max_score) ∧
      max 0 (min sv item.max_score) ≤ item.max_score) ∧
    0 ≤ r.score ∧ r.score ≤ round2 item.max_score ∧
    (∀ n : ℤ, (n : ℚ) = 100 * item.max_score → r.score ≤ item.max_score) := by
  obtain ⟨evs, sv, j0, hev, hsc, hju, hr⟩ := normalizeEvaluation_ok_inv h
  subst hr
  have hclamp0 : 0 ≤ max 0 (min sv item.max_score) := le_max_left _ _
  have hclampM : max 0 (min sv item.max_score) ≤ item.max_score :=
    max_le (le_of_lt hpos) (min_le_right _ _)
  refine ⟨rfl, ⟨evs, sv, hev, hsc, rfl, hclamp0, hclampM⟩, ?_, ?_, ?_⟩
  · exact round2_nonneg hclamp0
  · exact round2_mono hclampM
  · intro n hn
    have h2 : round2 item.max_score = item.max_score := round2_eq_self hn
    calc (mkNormScore item sv j0).score
        ≤ round2 item.max_score := round2_mono hclampM
      _ = item.max_score := h2

/-- The spec's own clamping scenario: `max_score = 5`, model returns score
`7` with justification `"Good rapport"`. -/
def clampWitItem : PayloadItem :=
  { rubric_item_id := "empathy".toList
    name := "Empathy".toList
    description := none
    item_type := "criterion".toList
    max_score := 5
    weight := none }

/-- The model evaluation of that scenario. -/
def clampWitResult : Json :=
  .obj [(evalKey, .obj [(scoreKey, .num 7),
    (justKey, .str "Good rapport".toList)])]

/-- Its normalized result: score clamped to `5.0`. -/
def clampWitNorm : NormScore :=
  { rubric_item_id := "empathy".toList
    item_type := "criterion".toList
    name := "Empathy".toList
    description := none
    score := 5
    max_score := 5
    feedback := "Good rapport".toList
    evidence := "Good rapport".toList
    justification := "Good rapport".toList }

/-- C1 witness: the amended bounds applied at the spec's scenario
(`max_score = 5` is a two-decimal value, so the stored score also stays
below `max_score` itself). -/
theorem score_clamping_bounds_witness :
    0 < clampWitItem.max_score ∧
    normalizeEvaluation clampWitItem clampWitResult = .ok clampWitNorm ∧
    0 ≤ clampWitNorm.score ∧
    clampWitNorm.score ≤ round2 clampWitItem.max_score ∧
    clampWitNorm.score ≤ clampWitItem.max_score := by
  have hpos : 0 < clampWitItem.max_score := by norm_num [clampWitItem]
  have h : normalizeEvaluation clampWitItem clampWitResult = .ok clampWitNorm := by
    with_unfolding_all rfl
  have main := score_clamping_bounds clampWitItem clampWitResult clampWitNorm hpos h
  exact ⟨hpos, h, main.2.2.1, main.2.2.2.1,
    main.2.2.2.2 500 (by norm_num [clampWitItem])⟩

/-! ## C9: the justification placeholder -/

/-- C9: if the model evaluation omits `justification`, or supplies an
empty or whitespace-only one, the stored justification is the fixed
placeholder `"No justification provided."`; a non-blank justification is
preserved trimmed. -/
theorem justification_placeholder (item : PayloadItem) (result : Json)
    (evs : List (PyStr × Json)) (r : NormScore)
    (hev : extractEvaluation result = .ok evs)
    (h : normalizeEvaluation item result = .ok r) :
    (objGet evs justKey = none → r.justification = noJustification) ∧
    (∀ s, objGet evs justKey = some (.str s) → pyStrip s = [] →
      r.justification = noJustification) ∧
    (∀ s, objGet evs justKey = some (.str s) → pyStrip s ≠ [] →
      r.justification = pyStrip s) := by
  obtain ⟨evs', sv, j0, hev', hsc, hju, hr⟩ := normalizeEvaluation_ok_inv h
  rw [hev] at hev'
  injection hev' with hee
  subst hee
  subst hr
  have hfield : (mkNormScore item sv j0).justification =
      if j0.isEmpty then noJustification else j0 := rfl
  refine ⟨?_, ?_, ?_⟩
  · intro hnone
    unfold extractJustification at hju
    rw [hnone] at hju
    injection hju with hj0
    rw [hfield, ← hj0]
    rfl
  · intro s hsome hstrip
    unfold extractJustification at hju
    rw [hsome] at hju
    have hj0 : j0 = [] := by
      cases s with
      | nil => simpa [jTruthy] using hju.symm
      | cons c cs =>
        have : Except.ok (α := PyStr) (ε := PyExn) (pyStrip (c :: cs)) =
            .ok j0 := by simpa [jTruthy] using hju
        injection this with hh
        rw [← hh, hstrip]
    rw [hfield, hj0]
    rfl
  · intro s hsome hstrip
    unfold extractJustification at hju
    rw [hsome] at hju
    cases s with
    | nil => exact absurd rfl hstrip
    | cons c cs =>
      have hh : Except.ok (α := PyStr) (ε := PyExn) (pyStrip (c :: cs)) =
          .ok j0 := by simpa [jTruthy] using hju
      injection hh with hh'
      rw [hfield, ← hh']
      rw [if_neg ?_]
      intro habs
      exact hstrip (List.isEmpty_iff.mp habs)

/-- Scoring item used by the C9 witness. -/
def justWitItem : PayloadItem :=
  { rubric_item_id := "c".toList
    name := "C".toList
    description := none
    item_type := "criterion".toList
    max_score := 5
    weight := none }

/-- The spec's scenario: an evaluation envelope carrying only score 3 and
no justification field. -/
def justResOmitted : Json := .obj [(evalKey, .obj [(scoreKey, .num 3)])]

/-- A whitespace-only justification. -/
def justResBlank : Json :=
  .obj [(evalKey, .obj [(scoreKey, .num 3), (justKey, .str "   ".toList)])]

/-- A non-blank justification with surrounding whitespace. -/
def justResKept : Json :=
  .obj [(evalKey, .obj [(scoreKey, .num 3),
    (justKey, .str "  Good rapport ".toList)])]

/-- Normalized result for the omitted-justification scenario. -/
def justNormOmitted : NormScore :=
  { rubric_item_id := "c".toList
    item_type := "criterion".toList
    name := "C".toList
    description := none
    score := 3
    max_score := 5
    feedback := noJustification
    evidence := noJustification
    justification := noJustification }

/-- Normalized result for the kept-justification scenario. -/
def justNormKept : NormScore :=
  { justNormOmitted with
    feedback := "Good rapport".toList
    evidence := "Good rapport".toList
    justification := "Good rapport".toList }

/-- C9 witness: the three scenarios, each obtained by applying
`justification_placeholder` at concrete inputs. -/
theorem justification_placeholder_witness :
    (normalizeEvaluation justWitItem justResOmitted = .ok justNormOmitted ∧
      justNormOmitted.justification = noJustification) ∧
    (normalizeEvaluation justWitItem justResBlank = .ok justNormOmitted ∧
      justNormOmitted.justification = noJustification) ∧
    (normalizeEvaluation justWitItem justResKept = .ok justNormKept ∧
      justNormKept.justification = "Good rapport".toList) := by
  have hA : normalizeEvaluation justWitItem justResOmitted = .ok justNormOmitted := by
    with_unfolding_all rfl
  have hB : normalizeEvaluation justWitItem justResBlank = .ok justNormOmitted := by
    with_unfolding_all rfl
  have hC : normalizeEvaluation justWitItem justResKept = .ok justNormKept := by
    with_unfolding_all rfl
  refine ⟨⟨hA, ?_⟩, ⟨hB, ?_⟩, ⟨hC, ?_⟩⟩
  · exact (justification_placeholder justWitItem justResOmitted _ _
      (by with_unfolding_all rfl) hA).1 (by with_unfolding_all rfl)
  · exact (justification_placeholder justWitItem justResBlank _ _
      (by with_unfolding_all rfl) hB).2.1 "   ".toList
      (by with_unfolding_all rfl) (by with_unfolding_all rfl)
  · have := (justification_placeholder justWitItem justResKept _ _
      (by with_unfolding_all rfl) hC).2.2 "  Good rapport ".toList
      (by with_unfolding_all rfl) (by with_unfolding_all decide)
    rw [this]
    with_unfolding_all rfl

/-! ## C10: the max_score default -/

/-- C10: in both scoring payload normalizations and in
`scoring_payload_from_payload`, an absent, `None` or `0` `max_score`
becomes `1.0`, while any nonzero value — negative included — passes
through unchanged. -/
theorem max_score_default_normalization (idx : Nat) (c : CriterionIn) :
    ((c.max_score = none ∨ c.max_score = some 0) →
      (makePayloadItem idx c).max_score = 1 ∧
      (scoring_payload_from_payload_item idx c).max_score = 1) ∧
    (∀ v : ℚ, c.max_score = some v → v ≠ 0 →
      (makePayloadItem idx c).max_score = v ∧
      (scoring_payload_from_payload_item idx c).max_score = v) := by
  constructor
  · rintro (h | h) <;>
      simp [makePayloadItem, scoring_payload_from_payload_item, h]
  · intro v hv hvz
    simp [makePayloadItem, scoring_payload_from_payload_item, hv, hvz]

/-- C10 witness: absent, zero and negative maxima at index 1. -/
theorem max_score_default_normalization_witness :
    (makePayloadItem 1 {}).max_score = 1 ∧
    (makePayloadItem 1 { max_score := some 0 }).max_score = 1 ∧
    (makePayloadItem 1 { max_score := some (-2) }).max_score = -2 ∧
    (scoring_payload_from_payload_item 1 { max_score := some (-2) }).max_score
      = -2 :=
  ⟨((max_score_default_normalization 1 {}).1 (Or.inl rfl)).1,
   ((max_score_default_normalization 1 { max_score := some 0 }).1
      (Or.inr rfl)).1,
   ((max_score_default_normalization 1 { max_score := some (-2) }).2
      (-2) rfl (by norm_num)).1,
   ((max_score_default_normalization 1 { max_score := some (-2) }).2
      (-2) rfl (by norm_num)).2⟩

/-! ## C2: aggregate totals and the percent guard -/

/-- Is an `Except` a success? (used to drive concrete witnesses). -/
def exceptOk : Except ε α → Bool
  | .ok _ => true
  | .error _ => false

/-- C2: for any report either pipeline returns, `total_score` is the
2-decimal rounding of the sum of the per-criterion scores,
`max_total_score` the rounding of the sum of the maxima, and the `percent`
fed to the band/summary is `0` whenever `max_total_score` is `0` (the
truthiness guard on line 237 / 355 prevents the division). -/
theorem aggregate_totals_and_percent (oracle : PayloadItem → Json)
    (criteria : List CriterionIn) (t rt : PyStr) (b : Nat) (rep : Report)
    (h : score_criteria oracle criteria t rt = .ok rep ∨
         score_criteria_parallel oracle criteria t rt b = .ok rep) :
    rep.total_score = round2 (rep.criterion_scores.map (·.score)).sum ∧
    rep.max_total_score = round2 (rep.criterion_scores.map (·.max_score)).sum ∧
    (rep.max_total_score = 0 → rep.percent = 0) ∧
    (rep.max_total_score ≠ 0 →
      rep.percent = rep.total_score / rep.max_total_score * 100) := by
  have hagg : ∃ ns, rep = aggregateScores ns rt := by
    rcases h with h | h
    · obtain ⟨ns, _, hrep⟩ := score_criteria_ok_inv h
      exact ⟨ns, hrep⟩
    · obtain ⟨ns, _, hrep⟩ := score_criteria_parallel_ok_inv h
      exact ⟨ns, hrep⟩
  obtain ⟨ns, hrep⟩ := hagg
  subst hrep
  refine ⟨rfl, rfl, ?_, ?_⟩
  · intro h0
    have h0' : round2 (ns.map (·.max_score)).sum = 0 := h0
    show (if round2 (ns.map (·.max_score)).sum ≠ 0
      then round2 (ns.map (·.score)).sum / round2 (ns.map (·.max_score)).sum * 100
      else 0) = 0
    rw [if_neg (not_not_intro h0')]
  · intro h0
    have h0' : round2 (ns.map (·.max_score)).sum ≠ 0 := h0
    show (if round2 (ns.map (·.max_score)).sum ≠ 0
      then round2 (ns.map (·.score)).sum / round2 (ns.map (·.max_score)).sum * 100
      else 0) = _
    rw [if_pos h0']
    rfl

/-- Criterion for the C2 witness. -/
def aggWitCriterion : CriterionIn :=
  { name := some "Empathy".toList, max_score := some 5 }

/-- The C2 witness run: one criterion, model evaluation as in the spec's
scenario. -/
def aggWitRun : Except PyExn Report :=
  score_criteria (fun _ => clampWitResult) [aggWitCriterion]
    "transcript text".toList "analytic".toList

/-- C2 witness: the totals/percent facts applied to a concrete successful
run. -/
theorem aggregate_totals_witness :
    ∃ rep, aggWitRun = .ok rep ∧
      rep.total_score = round2 (rep.criterion_scores.map (·.score)).sum ∧
      rep.max_total_score = round2 (rep.criterion_scores.map (·.max_score)).sum ∧
      (rep.max_total_score = 0 → rep.percent = 0) := by
  have hok : exceptOk aggWitRun = true := by with_unfolding_all rfl
  cases hr : aggWitRun with
  | error e => rw [hr] at hok; exact absurd hok (by simp [exceptOk])
  | ok rep =>
    have main := aggregate_totals_and_percent (fun _ => clampWitResult)
      [aggWitCriterion] "transcript text".toList "analytic".toList 1 rep
      (Or.inl hr)
    exact ⟨rep, rfl, main.1, main.2.1, main.2.2.1⟩

/-! ## C7: strengths / areas-for-development selection

Python's `sorted` is stable; `sorted(key, reverse=True)` keeps ties in
original order. `List.insertionSort r` with `r a b := key b ≤ key a`
realizes exactly that stable descending sort. The code filters *after*
sorting; the claim describes filtering before sorting, so we prove that a
filter commutes with the stable sort. -/

theorem orderedInsert_of_forall {α : Type} (r : α → α → Prop) [DecidableRel r]
    (x : α) (l : List α) (h : ∀ y ∈ l, r x y) :
    l.orderedInsert r x = x :: l := by
  cases l with
  | nil => rfl
  | cons y ys =>
    exact List.orderedInsert_of_le r ys (h y (List.mem_cons_self y ys))

theorem filter_orderedInsert_pos {α : Type} (r : α → α → Prop)
    [DecidableRel r] [IsTrans α r] (P : α → Bool) (x : α) :
    ∀ l : List α, List.Sorted r l → P x = true →
      (l.orderedInsert r x).filter P = (l.filter P).orderedInsert r x := by
  intro l
  induction l with
  | nil => intro _ hx; simp [hx]
  | cons y ys ih =>
    intro hsort hx
    obtain ⟨hy, hys⟩ := List.sorted_cons.mp hsort
    by_cases hxy : r x y
    · rw [List.orderedInsert, if_pos hxy]
      by_cases hPy : P y = true
      · simp [List.filter_cons, hx, hPy, List.orderedInsert, if_pos hxy]
      · have hPy' : P y = false := by
          cases hqy : P y
          · rfl
          · exact absurd hqy hPy
        simp only [List.filter_cons, hx, hPy', if_pos, if_neg,
          Bool.false_eq_true, if_false, if_true]
        rw [orderedInsert_of_forall r x (ys.filter P)]
        intro z hz
        exact IsTrans.trans x y z hxy (hy z (List.mem_of_mem_filter hz))
    · rw [List.orderedInsert, if_neg hxy]
      by_cases hPy : P y = true
      · simp only [List.filter_cons, hPy, if_true]
        rw [ih hys hx, List.orderedInsert, if_neg hxy]
      · have hPy' : P y = false := by
          cases hqy : P y
          · rfl
          · exact absurd hqy hPy
        simp only [List.filter_cons, hPy', Bool.false_eq_true, if_false]
        exact ih hys hx

theorem filter_orderedInsert_neg {α : Type} (r : α → α → Prop)
    [DecidableRel r] (P : α → Bool) (x : α) (hx : P x = false) :
    ∀ l : List α, (l.orderedInsert r x).filter P = l.filter P := by
  intro l
  induction l with
  | nil => simp [hx]
  | cons y ys ih =>
    rw [List.orderedInsert]
    by_cases hxy : r x y
    · rw [if_pos hxy, List.filter_cons, if_neg (by simp [hx])]
    · rw [if_neg hxy, List.filter_cons, List.filter_cons]
      rw [ih]

theorem filter_insertionSort {α : Type} (r : α → α → Prop) [DecidableRel r]
    [IsTotal α r] [IsTrans α r] (P : α → Bool) (l : List α) :
    (l.insertionSort r).filter P = (l.filter P).insertionSort r := by
  induction l with
  | nil => rfl
  | cons x xs ih =>
    rw [List.insertionSort]
    by_cases hx : P x = true
    · rw [filter_orderedInsert_pos r P x _ (List.sorted_insertionSort r xs) hx,
        ih, List.filter_cons, if_pos hx, List.insertionSort]
    · have hx' : P x = false := by
        cases hqx : P x
        · rfl
        · exact absurd hqx hx
      rw [filter_orderedInsert_neg r P x hx', ih, List.filter_cons,
        if_neg (by simp [hx'])]

instance : IsTotal NormScore descByRatio :=
  ⟨fun a b => le_total (ratioKey b) (ratioKey a)⟩

instance : IsTrans NormScore descByRatio :=
  ⟨fun _ _ _ hab hbc => le_trans hbc hab⟩

instance : IsTotal NormScore ascByRatio :=
  ⟨fun a b => le_total (ratioKey a) (ratioKey b)⟩

instance : IsTrans NormScore ascByRatio :=
  ⟨fun _ _ _ hab hbc => le_trans hab hbc⟩

/-- C7 (amended): when every `max_score` is positive, `key_strengths` is
exactly the first 3 of the stable descending-by-ratio sort of the entries
with ratio `≥ 0.8`, and `areas_for_development` the first 3 of the stable
ascending sort of those with ratio `≤ 0.6`. (Without the positivity
hypothesis the code's multiplicative conditions `score >= 0.8*max_score` /
`score <= 0.6*max_score` are not the ratio conditions the claim states —
see the counterexample.) -/
theorem strengths_areas_selection (normalized : List NormScore) (rt : PyStr)
    (hpos : ∀ e ∈ normalized, 0 < e.max_score) :
    (aggregateScores normalized rt).key_strengths =
      ((normalized.filter
        (fun e => decide ((0.8 : ℚ) ≤ ratioKey e))).insertionSort
          descByRatio).take 3 ∧
    (aggregateScores normalized rt).areas_for_development =
      ((normalized.filter
        (fun e => decide (ratioKey e ≤ (0.6 : ℚ)))).insertionSort
          ascByRatio).take 3 := by
  have hstr : (aggregateScores normalized rt).key_strengths =
      selectStrengths normalized := rfl
  have hare : (aggregateScores normalized rt).areas_for_development =
      selectAreas normalized := rfl
  constructor
  · rw [hstr]
    unfold selectStrengths
    rw [filter_insertionSort descByRatio]
    have hfilt : normalized.filter
        (fun e => decide ((0.8 : ℚ) * e.max_score ≤ e.score)) =
        normalized.filter (fun e => decide ((0.8 : ℚ) ≤ ratioKey e)) := by
      apply List.filter_congr
      intro e he
      have h := hpos e he
      simp only [decide_eq_decide]
      rw [ratioKey, if_pos (ne_of_gt h), le_div_iff₀ h]
    rw [hfilt]
  · rw [hare]
    unfold selectAreas
    rw [filter_insertionSort ascByRatio]
    have hfilt : normalized.filter
        (fun e => decide (e.score ≤ (0.6 : ℚ) * e.max_score)) =
        normalized.filter (fun e => decide (ratioKey e ≤ (0.6 : ℚ))) := by
      apply List.filter_congr
      intro e he
      have h := hpos e he
      simp only [decide_eq_decide]
      rw [ratioKey, if_pos (ne_of_gt h), div_le_iff₀ h]
    rw [hfilt]

/-- A payload item with negative maximum (reachable: C10 shows negative
`max_score` passes through normalization unchanged). -/
def negMaxItem : PayloadItem :=
  { rubric_item_id := "n".toList
    name := "N".toList
    description := none
    item_type := "criterion".toList
    max_score := -1
    weight := none }

/-- Model evaluation for the negative-maximum criterion. -/
def negMaxResult : Json := .obj [(evalKey, .obj [(scoreKey, .num 5)])]

/-- Its normalized result: clamp gives `0`, ratio `0 / (-1) = 0`. -/
def negMaxEntry : NormScore :=
  { rubric_item_id := "n".toList
    item_type := "criterion".toList
    name := "N".toList
    description := none
    score := 0
    max_score := -1
    feedback := noJustification
    evidence := noJustification
    justification := noJustification }

/-- C7 counterexample: the aggregated list `[negMaxEntry]` puts the entry
into `key_strengths` (the code tests `score >= 0.8 * max_score`, i.e.
`0 ≥ -0.8`), although its score/max_score ratio is `0 < 0.8` — so
`key_strengths` does *not* contain exactly the criteria with ratio ≥ 0.8. -/
theorem strengths_ratio_violation :
    normalizeEvaluation negMaxItem negMaxResult = .ok negMaxEntry ∧
    (aggregateScores [negMaxEntry] "analytic".toList).key_strengths =
      [negMaxEntry] ∧
    ratioKey negMaxEntry < 0.8 := by
  refine ⟨by with_unfolding_all rfl, by with_unfolding_all rfl, ?_⟩
  norm_num [ratioKey, negMaxEntry]

/-- Entry with ratio 1. -/
def ratioEntryA : NormScore := { negMaxEntry with
  rubric_item_id := "a".toList, name := "A".toList, score := 1, max_score := 1 }

/-- Entry with ratio 0.9. -/
def ratioEntryB : NormScore := { negMaxEntry with
  rubric_item_id := "b".toList, name := "B".toList, score := 9/10,
  max_score := 1 }

/-- Entry with ratio 0.5. -/
def ratioEntryC : NormScore := { negMaxEntry with
  rubric_item_id := "c".toList, name := "C".toList, score := 1/2,
  max_score := 1 }

/-- C7 witness: with positive maxima, the amended selection applied to a
concrete list — strengths are the ratio-`1` and ratio-`0.9` entries in
descending order, the ratio-`0.5` entry is the single area for
development. -/
theorem strengths_areas_selection_witness :
    (aggregateScores [ratioEntryA, ratioEntryB, ratioEntryC]
      "analytic".toList).key_strengths = [ratioEntryA, ratioEntryB] ∧
    (aggregateScores [ratioEntryA, ratioEntryB, ratioEntryC]
      "analytic".toList).areas_for_development = [ratioEntryC] := by
  have hpos : ∀ e ∈ [ratioEntryA, ratioEntryB, ratioEntryC],
      0 < e.max_score := by
    intro e he
    simp only [List.mem_cons, List.not_mem_nil, or_false] at he
    rcases he with rfl | rfl | rfl <;>
      norm_num [ratioEntryA, ratioEntryB, ratioEntryC, negMaxEntry]
  have main := strengths_areas_selection [ratioEntryA, ratioEntryB, ratioEntryC]
    "analytic".toList hpos
  constructor
  · rw [main.1]
    with_unfolding_all rfl
  · rw [main.2]
    with_unfolding_all rfl

/-! ## C5: batching, result count and order -/

theorem toBatchesGo_join {α : Type} {b : Nat} (hb : 0 < b) :
    ∀ (fuel : Nat) (l : List α), l.length ≤ fuel →
      (toBatchesGo b fuel l).flatten = l := by
  intro fuel
  induction fuel with
  | zero =>
    intro l hl
    cases l with
    | nil => rfl
    | cons x xs => simp at hl
  | succ fuel ih =>
    intro l hl
    cases l with
    | nil => rfl
    | cons x xs =>
      have hlen : ((x :: xs).drop b).length ≤ fuel := by
        rw [List.length_drop]
        have h1 : (x :: xs).length ≤ fuel + 1 := hl
        omega
      rw [toBatchesGo, List.flatten_cons, ih _ hlen, List.take_append_drop]
      simp

theorem toBatches_join {α : Type} {b : Nat} (hb : 0 < b) (l : List α) :
    (toBatches b l).flatten = l :=
  toBatchesGo_join hb l.length l (le_refl _)

theorem gatherBatches_eq_mapM_join {α β ε : Type} (f : α → Except ε β) :
    ∀ bs : List (List α), gatherBatches f bs = bs.flatten.mapM f := by
  intro bs
  induction bs with
  | nil => rfl
  | cons bat rest ih =>
    rw [gatherBatches, List.flatten_cons, List.mapM_append, ih]
    cases hb : bat.mapM f with
    | error e => rfl
    | ok rs =>
      cases hr : rest.flatten.mapM f with
      | error e => rfl
      | ok rest' => rfl

theorem mapM_ok_length {α β ε : Type} {f : α → Except ε β} :
    ∀ {l : List α} {rs : List β}, l.mapM f = .ok rs → rs.length = l.length := by
  intro l
  induction l with
  | nil =>
    intro rs h
    rw [List.mapM_nil] at h
    injection h with h
    rw [← h]
    rfl
  | cons a l ih =>
    intro rs h
    rw [List.mapM_cons] at h
    cases hf : f a with
    | error e => rw [hf] at h; exact absurd h (by simp [Bind.bind, Except.bind])
    | ok b =>
      rw [hf] at h
      cases hm : l.mapM f with
      | error e =>
        rw [hm] at h
        exact absurd h (by simp [Bind.bind, Except.bind, Pure.pure])
      | ok bs =>
        rw [hm] at h
        have h' : Except.ok (ε := ε) (b :: bs) = .ok rs := h
        injection h' with h''
        rw [← h'']
        simp [ih hm]

/-- The sizes `ceil(N/b)` consecutive batches must have: `N / b` full
batches of size `b`, then the remainder if nonzero. -/
def batchSizes (n b : Nat) : List Nat :=
  List.replicate (n / b) b ++ (if n % b = 0 then [] else [n % b])

theorem batchSizes_step {n b : Nat} (hb : 0 < b) (hn : 0 < n) :
    batchSizes n b = min b n :: batchSizes (n - b) b := by
  unfold batchSizes
  rcases le_or_lt b n with hbn | hnb
  · rw [Nat.div_eq_sub_div hb hbn, Nat.mod_eq_sub_mod hbn]
    rw [min_eq_left hbn]
    rfl
  · rw [Nat.div_eq_of_lt hnb, Nat.mod_eq_of_lt hnb]
    rw [min_eq_right (le_of_lt hnb)]
    have hnz : ¬ (n = 0) := Nat.pos_iff_ne_zero.mp hn
    rw [if_neg hnz]
    have h0 : n - b = 0 := Nat.sub_eq_zero_of_le (le_of_lt hnb)
    rw [h0]
    simp

theorem toBatchesGo_sizes {α : Type} {b : Nat} (hb : 0 < b) :
    ∀ (fuel : Nat) (l : List α), l.length ≤ fuel →
      (toBatchesGo b fuel l).map List.length = batchSizes l.length b := by
  intro fuel
  induction fuel with
  | zero =>
    intro l hl
    cases l with
    | nil => simp [toBatchesGo, batchSizes]
    | cons x xs => simp at hl
  | succ fuel ih =>
    intro l hl
    cases l with
    | nil => simp [toBatchesGo, batchSizes]
    | cons x xs =>
      have hlen : ((x :: xs).drop b).length ≤ fuel := by
        rw [List.length_drop]
        have h1 : (x :: xs).length ≤ fuel + 1 := hl
        omega
      rw [toBatchesGo, List.map_cons, ih _ hlen, List.length_take,
        List.length_drop]
      · exact (batchSizes_step hb (by simp)).symm
      · simp

theorem toBatches_sizes {α : Type} {b : Nat} (hb : 0 < b) (l : List α) :
    (toBatches b l).map List.length = batchSizes l.length b :=
  toBatchesGo_sizes hb l.length l (le_refl _)

theorem ceil_div_eq {n b : Nat} (hb : 0 < b) :
    (n + b - 1) / b = n / b + (if n % b = 0 then 0 else 1) := by
  obtain ⟨q, r, hrb, hn⟩ : ∃ q r, r < b ∧ n = b * q + r :=
    ⟨n / b, n % b, Nat.mod_lt n hb, (Nat.div_add_mod n b).symm⟩
  subst hn
  have hdiv : (b * q + r) / b = q := by
    rw [Nat.mul_add_div hb, Nat.div_eq_of_lt hrb]
    omega
  have hmod : (b * q + r) % b = r := by
    rw [Nat.mul_add_mod, Nat.mod_eq_of_lt hrb]
  rw [hdiv, hmod]
  rcases Nat.eq_zero_or_pos r with h0 | hpos
  · subst h0
    rw [if_pos rfl]
    cases q with
    | zero =>
      have hX : b * 0 + 0 + b - 1 = b - 1 := by omega
      rw [hX, Nat.div_eq_of_lt (by omega)]
    | succ q' =>
      have hT : ∃ T, b * (q' + 1) = T ∧ b ≤ T :=
        ⟨b * (q' + 1), rfl, Nat.le_mul_of_pos_right b (Nat.succ_pos q')⟩
      obtain ⟨T, hTe, hTb⟩ := hT
      rw [hTe]
      have hX : T + 0 + b - 1 = (b - 1) + T := by omega
      rw [hX, ← hTe, Nat.add_mul_div_left _ _ hb,
        Nat.div_eq_of_lt (by omega)]
      omega
  · rw [if_neg (Nat.pos_iff_ne_zero.mp hpos)]
    have hT : ∃ T, b * q = T := ⟨b * q, rfl⟩
    obtain ⟨T, hTe⟩ := hT
    have hX : b * q + r + b - 1 = (r + b - 1) + b * q := by
      rw [hTe]; omega
    rw [hX, Nat.add_mul_div_left _ _ hb]
    have h2 : r + b - 1 = (r - 1) + b := by omega
    rw [h2, Nat.add_div_right _ hb, Nat.div_eq_of_lt (by omega)]
    omega

theorem batchSizes_length {n b : Nat} (hb : 0 < b) :
    (batchSizes n b).length = (n + b - 1) / b := by
  unfold batchSizes
  rw [List.length_append, List.length_replicate, ceil_div_eq hb]
  rcases Nat.eq_zero_or_pos (n % b) with h0 | hpos
  · rw [if_pos h0, if_pos h0]
    rfl
  · rw [if_neg (Nat.pos_iff_ne_zero.mp hpos),
      if_neg (Nat.pos_iff_ne_zero.mp hpos)]
    rfl

/-- C5: for any successful `score_criteria_parallel` run with `b > 0`, the
report carries exactly one result per criterion, equal (as a list, hence in
the original criterion order) to the sequential in-order mapping of the
normalization over the payload; the criteria were split into
`ceil(N/b)` consecutive batches whose sizes are `b, ..., b, N mod b`
(`batchSizes`), and those batches concatenate back to the original payload
in order. -/
theorem parallel_scoring_order_and_batches (oracle : PayloadItem → Json)
    (criteria : List CriterionIn) (t rt : PyStr) (b : Nat) (rep : Report)
    (hb : 0 < b)
    (h : score_criteria_parallel oracle criteria t rt b = .ok rep) :
    rep.criterion_scores.length = criteria.length ∧
    ((List.enumFrom 1 criteria).map (fun p => makePayloadItem p.1 p.2)).mapM
      (fun it => normalizeEvaluation it (oracle it)) =
      .ok rep.criterion_scores ∧
    (toBatches b ((List.enumFrom 1 criteria).map
      (fun p => makePayloadItem p.1 p.2))).length =
      (criteria.length + b - 1) / b ∧
    (toBatches b ((List.enumFrom 1 criteria).map
      (fun p => makePayloadItem p.1 p.2))).map List.length =
      batchSizes criteria.length b ∧
    (toBatches b ((List.enumFrom 1 criteria).map
      (fun p => makePayloadItem p.1 p.2))).flatten =
      (List.enumFrom 1 criteria).map (fun p => makePayloadItem p.1 p.2) := by
  obtain ⟨ns, hg, hrep⟩ := score_criteria_parallel_ok_inv h
  have hplen : ((List.enumFrom 1 criteria).map
      (fun p => makePayloadItem p.1 p.2)).length = criteria.length := by
    rw [List.length_map, List.enumFrom_length]
  have hjoin := toBatches_join hb ((List.enumFrom 1 criteria).map
    (fun p => makePayloadItem p.1 p.2))
  have hmapM : ((List.enumFrom 1 criteria).map
      (fun p => makePayloadItem p.1 p.2)).mapM
      (fun it => normalizeEvaluation it (oracle it)) = .ok ns := by
    rw [← hjoin, ← gatherBatches_eq_mapM_join]
    exact hg
  have hcs : rep.criterion_scores = ns := by rw [hrep]; rfl
  refine ⟨?_, ?_, ?_, ?_, hjoin⟩
  · rw [hcs, mapM_ok_length hmapM, hplen]
  · rw [hcs]; exact hmapM
  · calc (toBatches b ((List.enumFrom 1 criteria).map
          (fun p => makePayloadItem p.1 p.2))).length
        = ((toBatches b ((List.enumFrom 1 criteria).map
            (fun p => makePayloadItem p.1 p.2))).map List.length).length :=
          (List.length_map _ _).symm
      _ = (batchSizes ((List.enumFrom 1 criteria).map
            (fun p => makePayloadItem p.1 p.2)).length b).length := by
          rw [toBatches_sizes hb]
      _ = (batchSizes criteria.length b).length := by rw [hplen]
      _ = (criteria.length + b - 1) / b := batchSizes_length hb
  · rw [← hplen]
    exact toBatches_sizes hb _

/-- Twelve default criteria (ids and names are filled in per index by the
payload normalization). -/
def batchWitCriteria : List CriterionIn := List.replicate 12 {}

/-- The C5 witness run: 12 criteria, `batch_size = 5`. -/
def batchWitRun : Except PyExn Report :=
  score_criteria_parallel (fun _ => clampWitResult) batchWitCriteria
    "some transcript".toList "analytic".toList 5

/-- C5 witness: the concrete 12-criterion, batch-size-5 scenario — 12
results, 3 batches of sizes 5, 5, 2. -/
theorem parallel_scoring_order_and_batches_witness :
    ∃ rep, batchWitRun = .ok rep ∧
      rep.criterion_scores.length = 12 ∧
      (toBatches 5 ((List.enumFrom 1 batchWitCriteria).map
        (fun p => makePayloadItem p.1 p.2))).length = 3 ∧
      (toBatches 5 ((List.enumFrom 1 batchWitCriteria).map
        (fun p => makePayloadItem p.1 p.2))).map List.length = [5, 5, 2] := by
  have hok : exceptOk batchWitRun = true := by with_unfolding_all rfl
  cases hr : batchWitRun with
  | error e => rw [hr] at hok; exact absurd hok (by simp [exceptOk])
  | ok rep =>
    have main := parallel_scoring_order_and_batches (fun _ => clampWitResult)
      batchWitCriteria "some transcript".toList "analytic".toList 5 rep
      (by norm_num) hr
    refine ⟨rep, rfl, ?_, ?_, ?_⟩
    · rw [main.1]; rfl
    · rw [main.2.2.1]; rfl
    · rw [main.2.2.2.1]; rfl

/-! ## C6: rate-limit detection at the provider call sites

The SDK call boundary is modelled as an `Except PyStr α`: either the raw
call result or the raised exception's text (`str(exc)`). -/

/-- scoring.py lines 115-116 (and the identical async wrapper, lines
175-176): *every* SDK exception — rate limits included — is wrapped in the
generic `ScoringError("LLM scoring request failed: ...")`; there is no
rate-limit check on this path. -/
def scoringRequestHandler (call : Except PyStr α) : Except PyExn α :=
  match call with
  | .ok v => .ok v
  | .error exc =>
    .error (.scoringError ("LLM scoring request failed: ".toList ++ exc))

/-- The user-actionable message raised by the extraction path. -/
def rateLimitMessage : PyStr :=
  ("Rate limit exceeded. Please wait a minute before uploading another " ++
   "rubric, or switch to a different LLM provider in settings.").toList

/-- rubric_parser.py lines 195-202 (`LLMRubricParser.parse`): the exception
text is lowercased and scanned for `"429"`, `"rate"` or
`"too many requests"`; on a match the distinct rate-limit
`RubricParsingError` is raised, otherwise the generic request failure. -/
def extractionRequestHandler (call : Except PyStr α) : Except PyExn α :=
  match call with
  | .ok v => .ok v
  | .error exc =>
    let error_message := pyLower exc
    if containsSub "429".toList error_message ||
       containsSub "rate".toList error_message ||
       containsSub "too many requests".toList error_message
    then .error (.rubricParsingError rateLimitMessage)
    else .error (.rubricParsingError ("LLM request failed: ".toList ++ exc))

/-- A typical provider rate-limit exception text. -/
def rateLimitExc : PyStr := "Error code: 429 - Too Many Requests".toList

/-- C6 counterexample: on the scoring path, an SDK failure whose text
carries both rate-limit markers (`429`, `too many requests`) is re-raised
as the generic `"LLM scoring request failed"` `ScoringError`; the message
suggests neither waiting nor switching providers. The claimed behaviour
holds only on the extraction path. -/
theorem scoring_rate_limit_wrapped_generic :
    containsSub "429".toList (pyLower rateLimitExc) = true ∧
    containsSub "too many requests".toList (pyLower rateLimitExc) = true ∧
    scoringRequestHandler (α := Unit) (.error rateLimitExc) =
      .error (.scoringError
        ("LLM scoring request failed: ".toList ++ rateLimitExc)) ∧
    containsSub "wait".toList
      (pyLower ("LLM scoring request failed: ".toList ++ rateLimitExc)) =
      false ∧
    containsSub "switch".toList
      (pyLower ("LLM scoring request failed: ".toList ++ rateLimitExc)) =
      false := by
  refine ⟨by decide, by decide, rfl, by decide, by decide⟩

/-- C6 (amended): the *extraction* call site detects rate limiting — any
SDK failure whose lowercased text contains `"429"`, `"rate"` or
`"too many requests"` raises the distinct `RubricParsingError` whose fixed
message suggests both waiting and switching providers; the scoring call
site instead wraps every SDK failure, rate limits included, in the generic
`ScoringError` (see the counterexample). -/
theorem extraction_rate_limit_detection (exc : PyStr)
    (h : containsSub "429".toList (pyLower exc) = true ∨
         containsSub "rate".toList (pyLower exc) = true ∨
         containsSub "too many requests".toList (pyLower exc) = true) :
    extractionRequestHandler (α := Unit) (.error exc) =
      .error (.rubricParsingError rateLimitMessage) ∧
    containsSub "wait".toList (pyLower rateLimitMessage) = true ∧
    containsSub "switch".toList (pyLower rateLimitMessage) = true := by
  refine ⟨?_, by decide, by decide⟩
  unfold extractionRequestHandler
  dsimp only
  rw [if_pos ?_]
  simp only [Bool.or_eq_true]
  tauto

/-- C6 witness: the amended detection applied to the concrete 429 text. -/
theorem extraction_rate_limit_detection_witness :
    extractionRequestHandler (α := Unit) (.error rateLimitExc) =
      .error (.rubricParsingError rateLimitMessage) ∧
    containsSub "wait".toList (pyLower rateLimitMessage) = true ∧
    containsSub "switch".toList (pyLower rateLimitMessage) = true :=
  extraction_rate_limit_detection rateLimitExc (Or.inl (by decide))

/-! ## parse_rubric (rubric_parser.py lines 264-452) -/

/-- Test `isinstance(v, dict)`. -/
def isObjJson : Json → Bool
  | .obj _ => true
  | _ => false

/-- Python `a or b` over two optional JSON values (as produced by `.get`):
the first operand wins when truthy. -/
def pyOrOptJson (a b : Option Json) : Option Json :=
  match a with
  | some v => if jTruthy v then some v else b
  | none => b

/-- Python `x or d` with a JSON default. -/
def jsonOrElse (v : Option Json) (d : Json) : Json :=
  match v with
  | some w => if jTruthy w then w else d
  | none => d

/-- The fixed priority order of candidate keys
(rubric_parser.py lines 434-440). -/
def candidateKeys : List PyStr :=
  ["criteria".toList, "rubric_items".toList, "items".toList,
   "rubricCriteria".toList, "rubric_items_list".toList]

/-- Loop `for key in candidate_keys: ... if isinstance(payload, list): return ...`
(lines 442-445): the first candidate key whose value is a list. -/
def findListPayload (kvs : List (PyStr × Json)) : List PyStr → Option (List Json)
  | [] => none
  | k :: ks =>
    match objGet kvs k with
    | some (.arr xs) => some xs
    | _ => findListPayload kvs ks

theorem pyOrOptJson_inv {a b : Option Json} {v : Json}
    (h : pyOrOptJson a b = some v) : a = some v ∨ b = some v := by
  cases a with
  | none => exact Or.inr h
  | some w =>
    unfold pyOrOptJson at h
    dsimp only at h
    by_cases hw : jTruthy w = true
    · rw [if_pos hw] at h
      exact Or.inl h
    · rw [if_neg hw] at h
      exact Or.inr h

mutual

/-- Structural weight of a JSON value, used as the recursion fuel of the
criteria resolver. -/
def jsonWeight : Json → Nat
  | .null => 1
  | .bool _ => 1
  | .num _ => 1
  | .str _ => 1
  | .arr xs => 1 + jsonWeightList xs
  | .obj kvs => 1 + jsonWeightKvs kvs

/-- Weight of a JSON array body. -/
def jsonWeightList : List Json → Nat
  | [] => 0
  | x :: xs => 1 + jsonWeight x + jsonWeightList xs

/-- Weight of a JSON object body. -/
def jsonWeightKvs : List (PyStr × Json) → Nat
  | [] => 0
  | (_, v) :: rest => 1 + jsonWeight v + jsonWeightKvs rest

end

theorem jsonWeight_pos (j : Json) : 0 < jsonWeight j := by
  cases j <;> rw [jsonWeight] <;> omega

theorem jsonWeight_objGet_le {kvs : List (PyStr × Json)} {k : PyStr}
    {v : Json} (h : objGet kvs k = some v) :
    jsonWeight v ≤ jsonWeightKvs kvs := by
  induction kvs with
  | nil => simp [objGet] at h
  | cons p rest ih =>
    obtain ⟨k', v'⟩ := p
    rw [objGet] at h
    cases hr : objGet rest k with
    | some w =>
      rw [hr] at h
      injection h with h
      subst h
      have h1 := ih hr
      rw [jsonWeightKvs]
      omega
    | none =>
      rw [hr] at h
      by_cases hk : k' = k
      · rw [if_pos hk] at h
        injection h with h
        subst h
        rw [jsonWeightKvs]
        omega
      · rw [if_neg hk] at h
        exact absurd h (by simp)

/-- The recursion of `_resolve_criteria_payload` (lines 425-452), driven
by a fuel that strictly decreases at each descent into `"rubric"`/`"data"`.
`resolveAux_mono` shows any fuel of at least `jsonWeight j` computes the
same value, so the fuel never cuts the recursion short. -/
def resolveAux (fuel : Nat) (j : Json) : List Json :=
  match j with
  | .arr entries => entries.filter isObjJson
  | .obj kvs =>
    match findListPayload kvs candidateKeys with
    | some xs => xs.filter isObjJson
    | none =>
      match pyOrOptJson (objGet kvs "rubric".toList)
          (objGet kvs "data".toList) with
      | some (.obj nkvs) =>
        match fuel with
        | 0 => []
        | fuel' + 1 => resolveAux fuel' (.obj nkvs)
      | _ => []
  | _ => []

/-- Function `_resolve_criteria_payload` (lines 425-452): a list keeps its dict
entries; a dict is searched for the candidate keys in priority order; on
failure the search *recurses* into a dict found under `"rubric"` or
`"data"` (Python `result.get("rubric") or result.get("data")`); everything
else resolves to zero criteria. -/
def resolve_criteria_payload (j : Json) : List Json :=
  resolveAux (jsonWeight j) j

theorem resolveAux_mono :
    ∀ (f1 f2 : Nat) (j : Json), jsonWeight j ≤ f1 → jsonWeight j ≤ f2 →
      resolveAux f1 j = resolveAux f2 j := by
  intro f1
  induction f1 with
  | zero =>
    intro f2 j h1 _
    exact absurd h1 (by have := jsonWeight_pos j; omega)
  | succ f1' ih =>
    intro f2 j h1 h2
    cases j with
    | arr entries => unfold resolveAux; rfl
    | null => unfold resolveAux; rfl
    | bool b => unfold resolveAux; rfl
    | num q => unfold resolveAux; rfl
    | str s => unfold resolveAux; rfl
    | obj kvs =>
      rw [resolveAux, resolveAux]
      cases hf : findListPayload kvs candidateKeys with
      | some xs => rfl
      | none =>
        dsimp only
        cases ho : pyOrOptJson (objGet kvs "rubric".toList)
            (objGet kvs "data".toList) with
        | none => rfl
        | some v =>
          cases v with
          | obj nkvs =>
            dsimp only
            have hlt : jsonWeight (Json.obj nkvs) <
                jsonWeight (Json.obj kvs) := by
              have hkv : jsonWeight (Json.obj kvs) =
                  1 + jsonWeightKvs kvs := by rw [jsonWeight]
              rcases pyOrOptJson_inv ho with hv | hv <;>
                (have hs := jsonWeight_objGet_le hv
                 omega)
            cases f2 with
            | zero =>
              have := jsonWeight_pos (Json.obj kvs)
              omega
            | succ f2' =>
              exact ih f2' (.obj nkvs) (by omega) (by omega)
          | null => rfl
          | bool b => rfl
          | num q => rfl
          | str s => rfl
          | arr xs => rfl

/-- Helper `_coerce_float` (lines 264-272): numbers (including `bool`, which is an
`int` in Python) pass; strings are stripped and parsed, raising the
"Expected numeric value" `RubricParsingError` on failure; every other type
raises it immediately. (The f-string rendering of the offending
value in the message is abbreviated.) -/
def coerce_float : Json → Except PyExn ℚ
  | .num q => .ok q
  | .bool b => .ok (if b then 1 else 0)
  | .str s =>
    match pyFloatOfStr s with
    | some q => .ok q
    | none =>
      .error (.rubricParsingError
        ("Expected numeric value, received: ".toList ++ s))
  | _ =>
    .error (.rubricParsingError "Expected numeric value, received:".toList)

/-- Helper `_clean_text` (lines 374-378). -/
def clean_text (v : Option Json) : Option PyStr :=
  match v with
  | some (.str s) =>
    let cleaned := pyStrip s
    if cleaned.isEmpty then none else some cleaned
  | _ => none

/-- Python `str(v)` for the values reaching `_clean_keywords` (numeric
rendering abbreviated to the integer part; no claim inspects keyword
strings). -/
def pyStrOfJson : Json → PyStr
  | .str s => s
  | .bool true => "True".toList
  | .bool false => "False".toList
  | .null => "None".toList
  | .num q => (Int.repr q.num).toList
  | .arr _ => "<list>".toList
  | .obj _ => "<dict>".toList

/-- The accumulation loop of `_clean_keywords` (lines 384-390): skip
`None`, strip the stringified value, keep nonempty first occurrences in
order. -/
def cleanKeywordsLoop : List Json → List PyStr → List PyStr
  | [], acc => acc
  | raw :: rest, acc =>
    match raw with
    | .null => cleanKeywordsLoop rest acc
    | r =>
      let cleaned := pyStrip (pyStrOfJson r)
      if !cleaned.isEmpty && !acc.contains cleaned
      then cleanKeywordsLoop rest (acc ++ [cleaned])
      else cleanKeywordsLoop rest acc

/-- Helper `_clean_keywords` (lines 381-391): non-lists and empty results give
`None`. -/
def clean_keywords (v : Option Json) : Option (List PyStr) :=
  match v with
  | some (.arr xs) =>
    let ks := cleanKeywordsLoop xs []
    if ks.isEmpty then none else some ks
  | _ => none

/-- Step `(v or default).strip()` where `v` is an optional JSON value and the
default a string: a truthy non-string raises `AttributeError` at
`.strip()`. -/
def stripOrJson (v : Option Json) (d : PyStr) : Except PyExn PyStr :=
  match v with
  | some w =>
    if jTruthy w then
      match w with
      | .str s => .ok (pyStrip s)
      | _ => .error .attributeError
    else .ok (pyStrip d)
  | none => .ok (pyStrip d)

/-- One normalized performance level (lines 406-413). -/
structure LevelOut where
  level_key : PyStr
  label : PyStr
  description : Option PyStr
  score : Option ℚ

/-- The loop of `_normalize_levels` (lines 398-413): 1-based enumeration,
non-dict entries skipped (but still counted), `score` coerced when not
`None`. -/
def normalizeLevelsLoop (pfx : PyStr) : Nat → List Json → Except PyExn (List LevelOut)
  | _, [] => .ok []
  | idx, entry :: rest =>
    match entry with
    | .obj ekvs =>
      match stripOrJson (objGet ekvs "label".toList)
          (("Level " ++ Nat.repr idx).toList) with
      | .error e => .error e
      | .ok label =>
        let description := clean_text (objGet ekvs "description".toList)
        match (match objGet ekvs "score".toList with
          | none => .ok none
          | some .null => .ok none
          | some v => (coerce_float v).map some : Except PyExn (Option ℚ)) with
        | .error e => .error e
        | .ok score =>
          match stripOrJson (objGet ekvs "level_key".toList)
              (pfx ++ '_' :: (Nat.repr idx).toList) with
          | .error e => .error e
          | .ok level_key =>
            match normalizeLevelsLoop pfx (idx + 1) rest with
            | .error e => .error e
            | .ok rest' =>
              .ok ({ level_key := level_key, label := label,
                     description := description, score := score } :: rest')
    | _ => normalizeLevelsLoop pfx (idx + 1) rest

/-- Helper `_normalize_levels` (lines 394-414): non-list payloads give `[]`. -/
def normalize_levels (payload : Json) (pfx : PyStr) :
    Except PyExn (List LevelOut) :=
  match payload with
  | .arr entries => normalizeLevelsLoop pfx 1 entries
  | _ => .ok []

/-- Constant `RUBRIC_TYPES` (line 50). -/
def rubricTypes : List PyStr :=
  ["analytic".toList, "holistic".toList, "single_point".toList,
   "checklist".toList, "hybrid".toList]

/-- Helper `_normalize_rubric_type` (lines 417-422). -/
def normalize_rubric_type (v : Option Json) : PyStr :=
  match v with
  | some (.str s) =>
    let normalized := pyLower (pyStrip s)
    if rubricTypes.contains normalized then normalized else "analytic".toList
  | _ => "analytic".toList

/-- The `single_point` metadata block (lines 315-325). -/
structure SinglePointOut where
  target_description : Option PyStr
  exceeds_description : Option PyStr
  below_description : Option PyStr

/-- The metadata dict assembled per criterion (lines 305-342); `none`
models an absent key. -/
structure MetaOut where
  keywords : Option (List PyStr)
  single_point : Option SinglePointOut
  checklist_required : Option Bool
  performance_levels : Option (List LevelOut)

/-- One structured criterion (lines 344-351). -/
structure CriterionOut where
  name : PyStr
  description : Option PyStr
  max_score : ℚ
  item_type : PyStr
  weight : Option ℚ
  metadata : MetaOut

/-- The structured rubric `parse_rubric` returns (lines 364-371). -/
structure RubricOut where
  title : PyStr
  summary : PyStr
  criteria : List CriterionOut
  max_total_score : ℚ
  rubric_type : PyStr
  levels : List LevelOut

/-- The entries of a resolved criterion item (always a dict: the resolver
filters on `isinstance(entry, dict)`; the default is never reached). -/
def jsonKvs : Json → List (PyStr × Json)
  | .obj kvs => kvs
  | _ => []

/-- The per-criterion body of the `parse_rubric` loop (lines 289-353). -/
def build_criterion (rubric_type : PyStr) (idx : Nat) (item : Json) :
    Except PyExn CriterionOut :=
  let ikvs := jsonKvs item
  match stripOrJson (objGet ikvs "name".toList)
      (("Criterion " ++ Nat.repr idx).toList) with
  | .error e => .error e
  | .ok name =>
    match stripOrJson (objGet ikvs "description".toList) [] with
    | .error e => .error e
    | .ok d0 =>
      let description := if d0.isEmpty then none else some d0
      match (match objGet ikvs "max_score".toList with
        | none => .ok 1
        | some .null => .ok 1
        | some v => coerce_float v : Except PyExn ℚ) with
      | .error e => .error e
      | .ok max_score =>
        match stripOrJson (objGet ikvs "item_type".toList)
            "criterion".toList with
        | .error e => .error e
        | .ok t0 =>
          let item_type := pyLower t0
          match (match objGet ikvs "weight".toList with
            | none => .ok none
            | some .null => .ok none
            | some v => (coerce_float v).map some : Except PyExn (Option ℚ)) with
          | .error e => .error e
          | .ok weight =>
            let metadata_payload := match objGet ikvs "metadata".toList with
              | some (.obj mkvs) => mkvs
              | _ => []
            let keywords_source := match objGet metadata_payload
                "keywords".toList with
              | none => objGet ikvs "keywords".toList
              | some .null => objGet ikvs "keywords".toList
              | some v => some v
            let keywords := clean_keywords keywords_source
            let sp_source := match objGet metadata_payload
                "single_point".toList with
              | some (.obj skvs) => skvs
              | _ => []
            let target := clean_text (pyOrOptJson
              (objGet sp_source "target_description".toList)
              (objGet ikvs "target_description".toList))
            let exceeds := clean_text (pyOrOptJson
              (objGet sp_source "exceeds_description".toList)
              (objGet ikvs "exceeds_description".toList))
            let below := clean_text (pyOrOptJson
              (objGet sp_source "below_description".toList)
              (objGet ikvs "below_description".toList))
            let single_point := if target.isSome || exceeds.isSome ||
                below.isSome
              then some (SinglePointOut.mk target exceeds below) else none
            let checklist_raw : Json := match objGet metadata_payload
                "checklist_required".toList with
              | none => (match objGet ikvs "checklist_required".toList with
                | none => .bool false
                | some v => v)
              | some .null => (match objGet ikvs
                  "checklist_required".toList with
                | none => .bool false
                | some v => v)
              | some v => v
            let withChecklist := item_type == "checklist".toList ||
              rubric_type == "checklist".toList
            let perf_source : Json := match objGet metadata_payload
                "performance_levels".toList with
              | none => (match objGet ikvs "performance_levels".toList with
                | none => .null
                | some v => v)
              | some .null => (match objGet ikvs
                  "performance_levels".toList with
                | none => .null
                | some v => v)
              | some v => v
            match normalize_levels perf_source
                ((pyLower name).map (fun c => if c = ' ' then '_' else c) ++
                  "_level".toList) with
            | .error e => .error e
            | .ok perf_levels =>
              .ok { name := name
                    description := description
                    max_score := max_score
                    item_type := item_type
                    weight := weight
                    metadata :=
                      { keywords := keywords
                        single_point := single_point
                        checklist_required :=
                          if withChecklist then some (jTruthy checklist_raw)
                          else none
                        performance_levels :=
                          if perf_levels.isEmpty then none
                          else some perf_levels } }

/-- The `for idx, item in enumerate(criteria_payload, start=1)` loop
(lines 289-353). -/
def buildCriteriaLoop (rubric_type : PyStr) :
    Nat → List Json → Except PyExn (List CriterionOut)
  | _, [] => .ok []
  | idx, item :: rest =>
    match build_criterion rubric_type idx item with
    | .error e => .error e
    | .ok c =>
      match buildCriteriaLoop rubric_type (idx + 1) rest with
      | .error e => .error e
      | .ok rest' => .ok (c :: rest')

/-- The post-LLM part of `parse_rubric` (lines 275-371), as a function of
the raw rubric text and the parsed LLM response. Raises the
"did not include any criteria" `RubricParsingError` when the resolver
finds nothing; a non-dict response that resolves criteria crashes at
`result.get` (`AttributeError`), exactly as the Python does. -/
def parse_rubric_post (raw_text : PyStr) (result : Json) :
    Except PyExn RubricOut :=
  let criteria_payload := resolve_criteria_payload result
  if criteria_payload.isEmpty then
    .error (.rubricParsingError
      "LLM response did not include any criteria.".toList)
  else
    match result with
    | .obj rkvs =>
      let rubric_type := normalize_rubric_type
        (objGet rkvs "rubric_type".toList)
      match normalize_levels (jsonOrElse
          (objGet rkvs "holistic_levels".toList) (.arr [])) "overall".toList with
      | .error e => .error e
      | .ok levels =>
        match buildCriteriaLoop rubric_type 1 criteria_payload with
        | .error e => .error e
        | .ok criteria =>
          match (match objGet rkvs "max_total_score".toList with
            | none => .ok (criteria.map (·.max_score)).sum
            | some .null => .ok (criteria.map (·.max_score)).sum
            | some v => coerce_float v : Except PyExn ℚ) with
          | .error e => .error e
          | .ok max_total_score =>
            match stripOrJson (objGet rkvs "rubric_summary".toList) [] with
            | .error e => .error e
            | .ok summary0 =>
              let summary_source := if summary0.isEmpty
                then (pyStrip raw_text).map
                  (fun c => if c = '\n' then ' ' else c)
                else summary0
              match stripOrJson (objGet rkvs "rubric_title".toList)
                  "Uploaded Rubric".toList with
              | .error e => .error e
              | .ok title =>
                .ok { title := if title.isEmpty
                        then "Uploaded Rubric".toList else title
                      summary := summary_source.take 400
                      criteria := criteria
                      max_total_score := max_total_score
                      rubric_type := rubric_type
                      levels := levels }
    | _ => .error .attributeError

theorem buildCriteriaLoop_length {rubric_type : PyStr} :
    ∀ {idx : Nat} {items : List Json} {cs : List CriterionOut},
      buildCriteriaLoop rubric_type idx items = .ok cs →
      cs.length = items.length := by
  intro idx items
  induction items generalizing idx with
  | nil =>
    intro cs h
    injection h with h
    rw [← h]
    rfl
  | cons item rest ih =>
    intro cs h
    rw [buildCriteriaLoop] at h
    cases hc : build_criterion rubric_type idx item with
    | error e => rw [hc] at h; exact absurd h (by simp)
    | ok c =>
      rw [hc] at h
      cases hr : buildCriteriaLoop rubric_type (idx + 1) rest with
      | error e => rw [hr] at h; exact absurd h (by simp)
      | ok rest' =>
        rw [hr] at h
        injection h with h
        rw [← h]
        simp [ih hr]

/-- C4 (amended): whenever the (recursive) criteria resolution finds
nothing, `parse_rubric` raises the `RubricParsingError` "LLM response did
not include any criteria."; and a successful `parse_rubric` never carries
an empty criteria list (one criterion is built per resolved payload
entry). -/
theorem parse_rubric_requires_criteria (raw_text : PyStr) (result : Json) :
    (resolve_criteria_payload result = [] →
      parse_rubric_post raw_text result =
        .error (.rubricParsingError
          "LLM response did not include any criteria.".toList)) ∧
    (∀ r, parse_rubric_post raw_text result = .ok r → r.criteria ≠ []) := by
  constructor
  · intro h
    unfold parse_rubric_post
    rw [h]
    rfl
  · intro r h
    cases hp : resolve_criteria_payload result with
    | nil =>
      unfold parse_rubric_post at h
      rw [hp] at h
      exact absurd h (by simp)
    | cons p ps =>
      unfold parse_rubric_post at h
      rw [hp] at h
      dsimp only [List.isEmpty_cons] at h
      rw [if_neg (by simp)] at h
      cases result with
      | obj rkvs =>
        dsimp only at h
        cases hl : normalize_levels (jsonOrElse
            (objGet rkvs "holistic_levels".toList) (.arr []))
            "overall".toList with
        | error e => rw [hl] at h; exact absurd h (by simp)
        | ok levels =>
          rw [hl] at h
          dsimp only at h
          cases hc : buildCriteriaLoop (normalize_rubric_type
              (objGet rkvs "rubric_type".toList)) 1 (p :: ps) with
          | error e => rw [hc] at h; exact absurd h (by simp)
          | ok criteria =>
            rw [hc] at h
            dsimp only at h
            have hclen : criteria.length = (p :: ps).length :=
              buildCriteriaLoop_length hc
            cases hm : (match objGet rkvs "max_total_score".toList with
              | none => .ok (criteria.map (·.max_score)).sum
              | some .null => .ok (criteria.map (·.max_score)).sum
              | some v => coerce_float v : Except PyExn ℚ) with
            | error e => rw [hm] at h; exact absurd h (by simp)
            | ok mts =>
              rw [hm] at h
              dsimp only at h
              cases hs : stripOrJson (objGet rkvs "rubric_summary".toList)
                  [] with
              | error e => rw [hs] at h; exact absurd h (by simp)
              | ok summary0 =>
                rw [hs] at h
                dsimp only at h
                cases ht : stripOrJson (objGet rkvs "rubric_title".toList)
                    "Uploaded Rubric".toList with
                | error e => rw [ht] at h; exact absurd h (by simp)
                | ok title =>
                  rw [ht] at h
                  dsimp only at h
                  injection h with h
                  rw [← h]
                  intro habs
                  have : criteria = [] := habs
                  rw [this] at hclen
                  exact absurd hclen.symm (by simp)
      | null => exact absurd h (by simp [parse_rubric_post])
      | bool b => exact absurd h (by simp)
      | num q => exact absurd h (by simp)
      | str s => exact absurd h (by simp)
      | arr xs => exact absurd h (by simp)

/-- The resolution procedure exactly as the claim words it: the candidate
keys at top level, then *one* level of nesting under `"rubric"` or
`"data"` (candidate keys tried on the nested dict, no deeper descent).
This is the claim's description, kept separate from the source-modelled
`resolve_criteria_payload` to compare the two. -/
def claim_resolve_one_level : Json → List Json
  | .arr entries => entries.filter isObjJson
  | .obj kvs =>
    (match findListPayload kvs candidateKeys with
    | some xs => xs.filter isObjJson
    | none =>
      match pyOrOptJson (objGet kvs "rubric".toList)
          (objGet kvs "data".toList) with
      | some (.obj nkvs) =>
        (match findListPayload nkvs candidateKeys with
        | some xs => xs.filter isObjJson
        | none => [])
      | _ => [])
  | _ => []

/-- A model response with the criteria nested *two* levels under
`"rubric"`. -/
def doublyNested : Json :=
  .obj [("rubric".toList, .obj [("rubric".toList, .obj
    [("criteria".toList, .arr [.obj [("name".toList, .str "A".toList),
      ("max_score".toList, .num 2)]])])])]

/-- What `parse_rubric` builds from it. -/
def doublyNestedOut : RubricOut :=
  { title := "Uploaded Rubric".toList
    summary := "rubric text".toList
    criteria := [{ name := "A".toList
                   description := none
                   max_score := 2
                   item_type := "criterion".toList
                   weight := none
                   metadata := { keywords := none
                                 single_point := none
                                 checklist_required := none
                                 performance_levels := none } }]
    max_total_score := 2
    rubric_type := "analytic".toList
    levels := [] }

/-- C4 counterexample: for the doubly-nested response the claim's
resolution procedure (candidate keys, then one level of nesting) yields
zero criteria — so the claim predicts a `RubricParsingError` — yet
`parse_rubric` succeeds with one criterion, because the source's
`_resolve_criteria_payload` recurses under `"rubric"`/`"data"` to any
depth. -/
theorem one_level_resolution_misses_nested_criteria :
    claim_resolve_one_level doublyNested = [] ∧
    resolve_criteria_payload doublyNested ≠ [] ∧
    parse_rubric_post "rubric text".toList doublyNested =
      .ok doublyNestedOut ∧
    doublyNestedOut.criteria.length = 1 := by
  have hne : resolve_criteria_payload doublyNested =
      [.obj [("name".toList, .str "A".toList),
        ("max_score".toList, .num 2)]] := by
    with_unfolding_all rfl
  refine ⟨by with_unfolding_all rfl, ?_, ?_, rfl⟩
  · intro habs
    rw [hne] at habs
    exact absurd habs (by simp)
  · unfold parse_rubric_post
    rw [hne]
    with_unfolding_all rfl

/-- A response with no criteria anywhere. -/
def noCriteriaResult : Json := .obj [("foo".toList, .num 1)]

/-- C4 witness: the amended behaviour at a concrete zero-criteria
response. -/
theorem parse_rubric_requires_criteria_witness :
    resolve_criteria_payload noCriteriaResult = [] ∧
    parse_rubric_post "text".toList noCriteriaResult =
      .error (.rubricParsingError
        "LLM response did not include any criteria.".toList) :=
  ⟨by with_unfolding_all rfl,
   (parse_rubric_requires_criteria "text".toList noCriteriaResult).1
     (by with_unfolding_all rfl)⟩
